import Mathlib

/-!
# A verification development for the `openalerts` core pipeline

This file gives a shallow embedding, in Lean 4, of the core data model and
operations of the `openalerts` monitoring/alerting engine
(`src/core/{types,config,evaluator,rules,store,engine}.py`), together with
theorems settling a list of behavioural claims about it.

Modelling conventions:

* Python `float` timestamps and thresholds are modelled as `ℚ`.
* Calls to `time.time()` become an explicit `now : ℚ` parameter; the several
  reads of the clock inside one call of a Python function (which are equal up
  to negligible drift) are identified with the single `now` of that call.
* Python `dict` becomes an association list (`alGet` / `alSet` preserve the
  insertion-order update semantics of `dict`); the `BoundedDict`
  (an `OrderedDict` with `move_to_end` on set and front eviction) becomes
  `bdGet` / `bdSet`.
* `collections.deque(maxlen=n)` becomes a list with `boundedAppend n`
  (append at the back, drop from the front on overflow).
* JSON values (the payload of `events.jsonl` lines) are modelled by the
  inductive `JValue`; serialisation by `pydantic.model_dump_json` and parsing
  by `model_validate` are modelled at the level of `JValue` (the textual
  JSON encoding itself is library code, outside the repository).
* Fallible parsing returns `Option`.
-/

/-! ## JSON values -/

/-- A JSON value, the payload of one line of `events.jsonl`. Numbers are
modelled as `ℚ`, objects as key/value lists in document order. -/
inductive JValue : Type where
  | null : JValue
  | bool : Bool → JValue
  | num : ℚ → JValue
  | str : String → JValue
  | arr : List JValue → JValue
  | obj : List (String × JValue) → JValue
deriving Repr

/-! ## Core enums and records (`src/core/types.py`) -/

/-- `EventType` (`types.py`): the fixed enumeration of event type tags. -/
inductive EventType : Type where
  | llm_call | llm_error | llm_token_usage
  | tool_call | tool_error
  | agent_start | agent_end | agent_error | agent_stuck | agent_step
  | token_limit | step_limit
  | custom
deriving DecidableEq, Repr

/-- The `StrEnum` string of each `EventType` member. -/
def eventTypeToString : EventType → String
  | .llm_call => "llm.call"
  | .llm_error => "llm.error"
  | .llm_token_usage => "llm.token_usage"
  | .tool_call => "tool.call"
  | .tool_error => "tool.error"
  | .agent_start => "agent.start"
  | .agent_end => "agent.end"
  | .agent_error => "agent.error"
  | .agent_stuck => "agent.stuck"
  | .agent_step => "agent.step"
  | .token_limit => "token.limit_exceeded"
  | .step_limit => "step.limit_warning"
  | .custom => "custom"

/-- Parse an `EventType` from its string form (pydantic enum validation). -/
def eventTypeOfString (s : String) : Option EventType :=
  if s = "llm.call" then some .llm_call
  else if s = "llm.error" then some .llm_error
  else if s = "llm.token_usage" then some .llm_token_usage
  else if s = "tool.call" then some .tool_call
  else if s = "tool.error" then some .tool_error
  else if s = "agent.start" then some .agent_start
  else if s = "agent.end" then some .agent_end
  else if s = "agent.error" then some .agent_error
  else if s = "agent.stuck" then some .agent_stuck
  else if s = "agent.step" then some .agent_step
  else if s = "token.limit_exceeded" then some .token_limit
  else if s = "step.limit_warning" then some .step_limit
  else if s = "custom" then some .custom
  else none

/-- `Severity` (`types.py`). -/
inductive Severity : Type where
  | info | warn | error | critical
deriving DecidableEq, Repr

/-- The `StrEnum` string of each `Severity` member. -/
def severityToString : Severity → String
  | .info => "info"
  | .warn => "warn"
  | .error => "error"
  | .critical => "critical"

/-- Parse a `Severity` from its string form. -/
def severityOfString (s : String) : Option Severity :=
  if s = "info" then some .info
  else if s = "warn" then some .warn
  else if s = "error" then some .error
  else if s = "critical" then some .critical
  else none

/-- `OpenAlertsEvent` (`types.py`): one ingested lifecycle event.
`ts` is seconds since epoch; `meta` is the free-form metadata object. -/
structure OpenAlertsEvent : Type where
  type : EventType
  ts : ℚ
  severity : Severity := Severity.info
  agent_name : Option String := none
  agent_class : Option String := none
  tool_name : Option String := none
  duration_ms : Option ℚ := none
  token_count : Option Int := none
  error : Option String := none
  outcome : Option String := none
  step_number : Option Int := none
  max_steps : Option Int := none
  meta : Option (List (String × JValue)) := none
deriving Repr

/-- `AlertEvent` (`types.py`): the result of a rule match. -/
structure AlertEvent : Type where
  rule_id : String
  severity : Severity
  title : String
  detail : String
  fingerprint : String
  ts : ℚ
  events : List OpenAlertsEvent := []
deriving Repr

/-! ## Configuration (`src/core/config.py`) -/

/-- `RuleOverride` (`config.py`): per-rule configuration override. -/
structure RuleOverride : Type where
  enabled : Option Bool := none
  threshold : Option Int := none
  cooldown_seconds : Option Int := none
deriving Repr

/-- `ChannelConfig` (`config.py`). -/
structure ChannelConfig : Type where
  type : String
  webhook_url : Option String := none
  name : Option String := none
  headers : Option (List (String × String)) := none
deriving Repr

/-- `OpenAlertsConfig` (`config.py`): immutable per-engine settings, with the
source defaults. `rules` maps a rule id to its override. -/
structure OpenAlertsConfig : Type where
  channels : List ChannelConfig := []
  framework : String := "openmanus"
  rules : List (String × RuleOverride) := []
  cooldown_seconds : Int := 900
  max_alerts_per_hour : Nat := 5
  quiet : Bool := false
  state_dir : Option String := none
  log_level : String := "INFO"
  max_log_size_kb : Nat := 512
  max_log_age_days : Nat := 7
  dashboard : Bool := true
  dashboard_port : Nat := 9464
  persist : Bool := true
deriving Repr

/-! ## Association-list maps (Python `dict` / `OrderedDict`) -/

/-- `dict.get(k)`: first (and, by construction, only) binding of `k`. -/
def alGet {α : Type} (m : List (String × α)) (k : String) : Option α :=
  (m.find? (fun p => p.1 = k)).map (fun p => p.2)

/-- `dict.get(k, d)`. -/
def alGetD {α : Type} (m : List (String × α)) (k : String) (d : α) : α :=
  (alGet m k).getD d

/-- `m[k] = v` on a Python `dict`: update in place when the key exists,
append at the end otherwise. -/
def alSet {α : Type} (m : List (String × α)) (k : String) (v : α) :
    List (String × α) :=
  if m.any (fun p => p.1 = k) then
    m.map (fun p => if p.1 = k then (k, v) else p)
  else
    m ++ [(k, v)]

/-! ## `BoundedDict` (`evaluator.py`)

An `OrderedDict` whose `__setitem__` writes the value, moves the key to the
most-recent end, then evicts from the oldest end while the size exceeds
`max_size`. The list is ordered oldest-first. -/

/-- `BoundedDict.get`. -/
def bdGet (m : List (String × ℚ)) (k : String) : Option ℚ :=
  (m.find? (fun p => p.1 = k)).map (fun p => p.2)

/-- `BoundedDict.__setitem__`: set + `move_to_end` (= remove any old binding,
append at the recent end), then evict oldest entries while over `maxSize`. -/
def bdSet (maxSize : Nat) (m : List (String × ℚ)) (k : String) (v : ℚ) :
    List (String × ℚ) :=
  let m2 := m.filter (fun p => ¬ p.1 = k) ++ [(k, v)]
  m2.drop (m2.length - maxSize)

/-- `MAX_COOLDOWN_ENTRIES` (`evaluator.py`). -/
def MAX_COOLDOWN_ENTRIES : Nat := 50

/-- `MAX_WINDOW_ENTRIES` (`evaluator.py`). -/
def MAX_WINDOW_ENTRIES : Nat := 100

/-- `collections.deque(maxlen=n).append`: append at the back, drop from the
front while over the bound. -/
def boundedAppend {α : Type} (maxLen : Nat) (l : List α) (x : α) : List α :=
  let l2 := l ++ [x]
  l2.drop (l2.length - maxLen)

/-! ## Evaluator state and context (`src/core/evaluator.py`) -/

/-- `EvaluatorState` (`evaluator.py`): per-engine mutable evaluator state. -/
structure EvaluatorState : Type where
  windows : List (String × List OpenAlertsEvent) := []
  cooldowns : List (String × ℚ) := []
  alerts_this_hour : Nat := 0
  hour_start : ℚ
  startup_time : ℚ
  stats : List (String × Nat) := []
deriving Repr

/-- `EvaluatorState()` freshly constructed at time `now`
(`hour_start` and `startup_time` default to `time.time()`). -/
def initEvaluatorState (now : ℚ) : EvaluatorState :=
  { hour_start := now, startup_time := now }

/-- `RuleContext` (`evaluator.py`), with the clock made explicit. -/
structure RuleContext : Type where
  windows : List (String × List OpenAlertsEvent)
  config : OpenAlertsConfig
  now : ℚ

/-- `RuleContext.get_window`: the stored window of `rule_id`, filtered to
events with `ts ≥ now - window_seconds`. -/
def RuleContext.get_window (ctx : RuleContext) (rule_id : String)
    (window_seconds : ℚ) : List OpenAlertsEvent :=
  let window := (alGet ctx.windows rule_id).getD []
  let cutoff := ctx.now - window_seconds
  window.filter (fun e => cutoff ≤ e.ts)

/-- `RuleContext.get_threshold`: per-rule override threshold, else default. -/
def RuleContext.get_threshold (ctx : RuleContext) (rule_id : String)
    (default : ℚ) : ℚ :=
  match alGet ctx.config.rules rule_id with
  | some o =>
    match o.threshold with
    | some t => (t : ℚ)
    | none => default
  | none => default

/-- `AlertRule` (`rules.py`): id, defaults, and the evaluation function. -/
structure AlertRule : Type where
  id : String
  default_cooldown_seconds : Int
  default_threshold : ℚ
  evaluate : OpenAlertsEvent → RuleContext → Option AlertEvent

/-- `_is_rule_enabled` (`evaluator.py`). -/
def _is_rule_enabled (config : OpenAlertsConfig) (rule_id : String) : Bool :=
  match alGet config.rules rule_id with
  | some o =>
    match o.enabled with
    | some b => b
    | none => true
  | none => true

/-- `_get_cooldown` (`evaluator.py`). Its source comment announces the
priority "per-rule override > global config > rule default", but the body
returns the per-rule override when set and otherwise falls straight through
to the rule's own default, never consulting `config.cooldown_seconds`. -/
def _get_cooldown (config : OpenAlertsConfig) (rule : AlertRule) : Int :=
  match alGet config.rules rule.id with
  | some o =>
    match o.cooldown_seconds with
    | some c => c
    | none => rule.default_cooldown_seconds
  | none => rule.default_cooldown_seconds

/-- `_is_cooled_down` (`evaluator.py`): true when the fingerprint never fired
or last fired at least `cooldown_seconds` ago. -/
def _is_cooled_down (state : EvaluatorState) (fingerprint : String)
    (cooldown_seconds : Int) (now : ℚ) : Bool :=
  match bdGet state.cooldowns fingerprint with
  | none => true
  | some last_fired => (cooldown_seconds : ℚ) ≤ now - last_fired

/-- `_reset_hour_if_needed` (`evaluator.py`): fixed-window hourly reset. -/
def _reset_hour_if_needed (state : EvaluatorState) (now : ℚ) : EvaluatorState :=
  if (3600 : ℚ) ≤ now - state.hour_start then
    { state with alerts_this_hour := 0, hour_start := now }
  else
    state

/-- The first loop of `process_event`: append the event to every rule's
window (creating the bounded deque on first use). -/
def appendToWindows (rules : List AlertRule)
    (ws : List (String × List OpenAlertsEvent)) (event : OpenAlertsEvent) :
    List (String × List OpenAlertsEvent) :=
  rules.foldl
    (fun ws rule =>
      alSet ws rule.id (boundedAppend MAX_WINDOW_ENTRIES (alGetD ws rule.id []) event))
    ws

/-- The body of the per-rule loop of `process_event` for one rule. -/
def processRuleStep (config : OpenAlertsConfig) (event : OpenAlertsEvent)
    (now : ℚ) (acc : EvaluatorState × List AlertEvent) (rule : AlertRule) :
    EvaluatorState × List AlertEvent :=
  let st := acc.1
  let fired := acc.2
  if ¬ _is_rule_enabled config rule.id then acc
  else
    let ctx : RuleContext := ⟨st.windows, config, now⟩
    match rule.evaluate event ctx with
    | none => acc
    | some alert =>
      let cooldown := _get_cooldown config rule
      if ¬ _is_cooled_down st alert.fingerprint cooldown now then acc
      else if config.max_alerts_per_hour ≤ st.alerts_this_hour then acc
      else
        ({ st with
            cooldowns := bdSet MAX_COOLDOWN_ENTRIES st.cooldowns alert.fingerprint now,
            alerts_this_hour := st.alerts_this_hour + 1,
            stats := alSet st.stats rule.id (alGetD st.stats rule.id 0 + 1) },
          fired ++ [alert])

/-- `process_event` (`evaluator.py`): run all rules against one event;
returns the state after mutation and the fired alerts. -/
def process_event (state : EvaluatorState) (config : OpenAlertsConfig)
    (event : OpenAlertsEvent) (rules : List AlertRule) (now : ℚ) :
    EvaluatorState × List AlertEvent :=
  let state := _reset_hour_if_needed state now
  let state := { state with windows := appendToWindows rules state.windows event }
  rules.foldl (processRuleStep config event now) (state, [])

/-! ## The rule catalogue (`src/core/rules.py`) -/

/-- Python truthiness-based `x or default` on an optional string
(`None` and `""` both fall back to the default). -/
def pyOr (o : Option String) (d : String) : String :=
  match o with
  | some s => if s = "" then d else s
  | none => d

/-- `_fingerprint` (`rules.py`) joins the parts with `":"` and returns the
first 12 hex digits of the md5 digest. The digest itself is library code;
the joined key stands in for it here (deterministic in the parts, injective
where the digest is collision-free). -/
def fingerprint (parts : List String) : String :=
  String.intercalate ":" parts

/-- `LLMErrorsRule` (`rules.py`). -/
def LLMErrorsRule : AlertRule where
  id := "llm-errors"
  default_cooldown_seconds := 900
  default_threshold := 1
  evaluate := fun event ctx =>
    if event.type = EventType.llm_error then
      let window := ctx.get_window "llm-errors" 60
      let errors := window.filter (fun e => e.type = EventType.llm_error)
      let threshold := ctx.get_threshold "llm-errors" 1
      if threshold ≤ (errors.length : ℚ) then
        some
          { rule_id := "llm-errors"
            severity := Severity.error
            title := "LLM API Errors Detected"
            detail := toString errors.length ++
              " LLM error(s) in the last 60s. Latest: " ++ pyOr event.error "unknown"
            fingerprint := fingerprint ["llm-errors"]
            ts := ctx.now
            events := errors }
      else none
    else none

/-- `ToolErrorsRule` (`rules.py`). -/
def ToolErrorsRule : AlertRule where
  id := "tool-errors"
  default_cooldown_seconds := 900
  default_threshold := 1
  evaluate := fun event ctx =>
    if event.type = EventType.tool_error then
      let window := ctx.get_window "tool-errors" 60
      let errors := window.filter (fun e => e.type = EventType.tool_error)
      let threshold := ctx.get_threshold "tool-errors" 1
      if threshold ≤ (errors.length : ℚ) then
        some
          { rule_id := "tool-errors"
            severity := Severity.warn
            title := "Tool Execution Errors"
            detail := toString errors.length ++
              " tool error(s) in the last 60s. Tool: " ++ pyOr event.tool_name "unknown"
            fingerprint := fingerprint ["tool-errors", pyOr event.tool_name ""]
            ts := ctx.now
            events := errors }
      else none
    else none

/-- `AgentStuckRule` (`rules.py`): fires immediately on every
`agent.stuck` event. -/
def AgentStuckRule : AlertRule where
  id := "agent-stuck"
  default_cooldown_seconds := 900
  default_threshold := 1
  evaluate := fun event ctx =>
    if event.type = EventType.agent_stuck then
      some
        { rule_id := "agent-stuck"
          severity := Severity.warn
          title := "Agent Stuck"
          detail := "Agent '" ++ pyOr event.agent_name "unknown" ++
            "' appears stuck (repeating actions)."
          fingerprint := fingerprint ["agent-stuck", pyOr event.agent_name ""]
          ts := ctx.now
          events := [event] }
    else none

/-- `TokenLimitRule` (`rules.py`): fires immediately on every
`token.limit_exceeded` event. -/
def TokenLimitRule : AlertRule where
  id := "token-limit"
  default_cooldown_seconds := 900
  default_threshold := 1
  evaluate := fun event ctx =>
    if event.type = EventType.token_limit then
      some
        { rule_id := "token-limit"
          severity := Severity.error
          title := "Token Limit Exceeded"
          detail := "Agent '" ++ pyOr event.agent_name "unknown" ++
            "' exceeded token limit."
          fingerprint := fingerprint ["token-limit", pyOr event.agent_name ""]
          ts := ctx.now
          events := [event] }
    else none

/-- `StepLimitWarningRule` (`rules.py`): on an `agent.step` event carrying
both `step_number` and `max_steps`, fires when
`(step_number / max_steps) * 100 ≥ threshold` (default 80). The Python
division raises `ZeroDivisionError` when `max_steps = 0`; `ℚ` division puts
that degenerate input outside the model. The rounded-percent suffix of the
Python detail string is elided. -/
def StepLimitWarningRule : AlertRule where
  id := "step-limit-warning"
  default_cooldown_seconds := 900
  default_threshold := 80
  evaluate := fun event ctx =>
    if event.type = EventType.agent_step then
      match event.step_number, event.max_steps with
      | some n, some m =>
        let threshold_pct := ctx.get_threshold "step-limit-warning" 80
        let pct : ℚ := (n : ℚ) / (m : ℚ) * 100
        if threshold_pct ≤ pct then
          some
            { rule_id := "step-limit-warning"
              severity := Severity.warn
              title := "Step Limit Warning"
              detail := "Agent '" ++ pyOr event.agent_name "unknown" ++
                "' at step " ++ toString n ++ "/" ++ toString m ++ "."
              fingerprint := fingerprint ["step-limit-warning", pyOr event.agent_name ""]
              ts := ctx.now
              events := [event] }
        else none
      | _, _ => none
    else none

/-- The `tool_events` of `HighErrorRateRule.evaluate`: the tool events found
in the last-300s window of the rule. -/
def herToolEvents (ctx : RuleContext) : List OpenAlertsEvent :=
  (ctx.get_window "high-error-rate" 300).filter
    (fun e => e.type = EventType.tool_call ∨ e.type = EventType.tool_error)

/-- The `recent` of `HighErrorRateRule.evaluate`: the most recent 20 tool
events (`tool_events[-20:]`). -/
def herRecent (ctx : RuleContext) : List OpenAlertsEvent :=
  (herToolEvents ctx).drop ((herToolEvents ctx).length - 20)

/-- The `errors` of `HighErrorRateRule.evaluate`. -/
def herErrors (ctx : RuleContext) : List OpenAlertsEvent :=
  (herRecent ctx).filter (fun e => e.type = EventType.tool_error)

/-- The `rate` of `HighErrorRateRule.evaluate`: `len(errors) / 20 * 100`. -/
def herRate (ctx : RuleContext) : ℚ :=
  ((herErrors ctx).length : ℚ) / 20 * 100

/-- `HighErrorRateRule` (`rules.py`): on a tool event, looks at the tool
events of the last 300s, requires at least 20 of them, and fires when the
error fraction of the most recent 20 strictly exceeds the threshold percent
(default 50). `len(errors)/20*100` is the exact integer `len(errors)*5`,
so the detail string is rendered exactly. -/
def HighErrorRateRule : AlertRule where
  id := "high-error-rate"
  default_cooldown_seconds := 900
  default_threshold := 50
  evaluate := fun event ctx =>
    if event.type = EventType.tool_call ∨ event.type = EventType.tool_error then
      if (herToolEvents ctx).length < 20 then none
      else if ctx.get_threshold "high-error-rate" 50 < herRate ctx then
        some
          { rule_id := "high-error-rate"
            severity := Severity.error
            title := "High Tool Error Rate"
            detail := toString ((herErrors ctx).length * 5) ++
              "% of last 20 tool calls failed (" ++
              toString (herErrors ctx).length ++ "/20)."
            fingerprint := fingerprint ["high-error-rate"]
            ts := ctx.now
            events := herRecent ctx }
      else none
    else none

/-- `ALL_RULES` (`rules.py`), in registration order. -/
def ALL_RULES : List AlertRule :=
  [LLMErrorsRule, ToolErrorsRule, AgentStuckRule, TokenLimitRule,
   StepLimitWarningRule, HighErrorRateRule]

/-! ## JSON serialisation of events and alerts

`append_event` (`store.py`) writes `model.model_dump_json()`; `load_history`
and `warm_from_history` parse lines with `json.loads` and validate with
`model_validate`. Serialisation dumps every field (in declaration order,
`None` as `null`, enums as strings); validation requires the declared types,
fills declared defaults for missing keys, and ignores extra keys. -/

/-- Serialise an optional string field (`None` → `null`). -/
def jOptStr (o : Option String) : JValue :=
  match o with
  | none => JValue.null
  | some s => JValue.str s

/-- Serialise an optional float field. -/
def jOptNum (o : Option ℚ) : JValue :=
  match o with
  | none => JValue.null
  | some q => JValue.num q

/-- Serialise an optional int field. -/
def jOptInt (o : Option Int) : JValue :=
  match o with
  | none => JValue.null
  | some i => JValue.num (i : ℚ)

/-- Serialise an optional metadata object. -/
def jOptObj (o : Option (List (String × JValue))) : JValue :=
  match o with
  | none => JValue.null
  | some fields => JValue.obj fields

/-- The dumped field list of `event.model_dump_json()`. -/
def evFields (e : OpenAlertsEvent) : List (String × JValue) :=
    [("type", JValue.str (eventTypeToString e.type)),
     ("ts", JValue.num e.ts),
     ("severity", JValue.str (severityToString e.severity)),
     ("agent_name", jOptStr e.agent_name),
     ("agent_class", jOptStr e.agent_class),
     ("tool_name", jOptStr e.tool_name),
     ("duration_ms", jOptNum e.duration_ms),
     ("token_count", jOptInt e.token_count),
     ("error", jOptStr e.error),
     ("outcome", jOptStr e.outcome),
     ("step_number", jOptInt e.step_number),
     ("max_steps", jOptInt e.max_steps),
     ("meta", jOptObj e.meta)]

/-- `event.model_dump_json()` at the `JValue` level. -/
def eventToJson (e : OpenAlertsEvent) : JValue :=
  JValue.obj (evFields e)

/-- The dumped field list of `alert.model_dump_json()`. -/
def alFields (a : AlertEvent) : List (String × JValue) :=
    [("rule_id", JValue.str a.rule_id),
     ("severity", JValue.str (severityToString a.severity)),
     ("title", JValue.str a.title),
     ("detail", JValue.str a.detail),
     ("fingerprint", JValue.str a.fingerprint),
     ("ts", JValue.num a.ts),
     ("events", JValue.arr (a.events.map eventToJson))]

/-- `alert.model_dump_json()` at the `JValue` level. -/
def alertToJson (a : AlertEvent) : JValue :=
  JValue.obj (alFields a)

/-- Look a key up in a JSON object's field list (`data.get(key)`). -/
def jGet (fields : List (String × JValue)) (k : String) : Option JValue :=
  (fields.find? (fun p => p.1 = k)).map (fun p => p.2)

/-- `key in data` on a JSON object. -/
def jHasKey (fields : List (String × JValue)) (k : String) : Bool :=
  fields.any (fun p => p.1 = k)

/-- Validate a required string field. -/
def parseStr (o : Option JValue) : Option String :=
  match o with
  | some (JValue.str s) => some s
  | _ => none

/-- Validate an `Option String` field defaulting to `None`. -/
def parseOptStr (o : Option JValue) : Option (Option String) :=
  match o with
  | none => some none
  | some JValue.null => some none
  | some (JValue.str s) => some (some s)
  | some _ => none

/-- Validate an `Option float` field defaulting to `None`. -/
def parseOptNum (o : Option JValue) : Option (Option ℚ) :=
  match o with
  | none => some none
  | some JValue.null => some none
  | some (JValue.num q) => some (some q)
  | some _ => none

/-- Validate an `Option int` field defaulting to `None` (a JSON number is
accepted exactly when it is integral, as pydantic lax mode does). -/
def parseOptInt (o : Option JValue) : Option (Option Int) :=
  match o with
  | none => some none
  | some JValue.null => some none
  | some (JValue.num q) => if q.den = 1 then some (some q.num) else none
  | some _ => none

/-- Validate an `Option dict` metadata field defaulting to `None`. -/
def parseOptObj (o : Option JValue) : Option (Option (List (String × JValue))) :=
  match o with
  | none => some none
  | some JValue.null => some none
  | some (JValue.obj fields) => some (some fields)
  | some _ => none

/-- Validate a float field whose declared default is `time.time()`:
a missing key yields the current time `now`. -/
def parseNumD (now : ℚ) (o : Option JValue) : Option ℚ :=
  match o with
  | none => some now
  | some (JValue.num q) => some q
  | some _ => none

/-- Validate the `severity` field of an event (default `info`). -/
def parseSevD (o : Option JValue) : Option Severity :=
  match o with
  | none => some Severity.info
  | some (JValue.str s) => severityOfString s
  | some _ => none

/-- `OpenAlertsEvent.model_validate` at the `JValue` level. `now` is the
clock value supplying the `ts` default factory. -/
def jsonToEvent (now : ℚ) (j : JValue) : Option OpenAlertsEvent :=
  match j with
  | JValue.obj fields =>
    (parseStr (jGet fields "type")).bind fun tys =>
    (eventTypeOfString tys).bind fun ty =>
    (parseNumD now (jGet fields "ts")).bind fun ts =>
    (parseSevD (jGet fields "severity")).bind fun sev =>
    (parseOptStr (jGet fields "agent_name")).bind fun an =>
    (parseOptStr (jGet fields "agent_class")).bind fun ac =>
    (parseOptStr (jGet fields "tool_name")).bind fun tn =>
    (parseOptNum (jGet fields "duration_ms")).bind fun dm =>
    (parseOptInt (jGet fields "token_count")).bind fun tc =>
    (parseOptStr (jGet fields "error")).bind fun err =>
    (parseOptStr (jGet fields "outcome")).bind fun out =>
    (parseOptInt (jGet fields "step_number")).bind fun sn =>
    (parseOptInt (jGet fields "max_steps")).bind fun ms =>
    (parseOptObj (jGet fields "meta")).map fun mt =>
      { type := ty, ts := ts, severity := sev, agent_name := an,
        agent_class := ac, tool_name := tn, duration_ms := dm,
        token_count := tc, error := err, outcome := out,
        step_number := sn, max_steps := ms, meta := mt }
  | _ => none

/-- Validate the `events` list of an alert (default `[]`); every element
must validate as an event. -/
def parseEventsD (now : ℚ) (o : Option JValue) : Option (List OpenAlertsEvent) :=
  match o with
  | none => some []
  | some (JValue.arr xs) => xs.mapM (jsonToEvent now)
  | some _ => none

/-- `AlertEvent.model_validate` at the `JValue` level (`severity`, `rule_id`,
`title`, `detail`, `fingerprint` required; `ts` defaults to the clock;
`events` defaults to `[]`). -/
def jsonToAlert (now : ℚ) (j : JValue) : Option AlertEvent :=
  match j with
  | JValue.obj fields =>
    (parseStr (jGet fields "rule_id")).bind fun rid =>
    (parseStr (jGet fields "severity")).bind fun sevs =>
    (severityOfString sevs).bind fun sev =>
    (parseStr (jGet fields "title")).bind fun title =>
    (parseStr (jGet fields "detail")).bind fun detail =>
    (parseStr (jGet fields "fingerprint")).bind fun fp =>
    (parseNumD now (jGet fields "ts")).bind fun ts =>
    (parseEventsD now (jGet fields "events")).map fun evs =>
      { rule_id := rid, severity := sev, title := title, detail := detail,
        fingerprint := fp, ts := ts, events := evs }
  | _ => none

/-! ## The persistent store (`src/core/store.py`)

The log file is a list of lines; a line is modelled as `Option JValue`:
`some j` for a line whose text parses as the JSON value `j`, `none` for a
blank or unparsable line (both are skipped by every reader). A missing file
is `Option (List (Option JValue)) = none`. -/

/-- One line of `load_history`: a line with both `rule_id` and `fingerprint`
keys is (only) tried as an Alert record; otherwise a line with a `type` key
is (only) tried as an Event record; other lines, and lines failing
validation, are skipped (`except` swallows everything there). Non-object
JSON lines raise `TypeError` on `in`, also swallowed. -/
def classifyLine (now : ℚ) (j : JValue) :
    Option (OpenAlertsEvent ⊕ AlertEvent) :=
  match j with
  | JValue.obj fields =>
    if jHasKey fields "rule_id" ∧ jHasKey fields "fingerprint" then
      (jsonToAlert now (JValue.obj fields)).map Sum.inr
    else if jHasKey fields "type" then
      (jsonToEvent now (JValue.obj fields)).map Sum.inl
    else none
  | _ => none

/-- `load_history` (`store.py`) on parsed lines: classify every line, then
return the last `event_limit` events and last `alert_limit` alerts. -/
def loadHistoryLines (now : ℚ) (lines : List (Option JValue))
    (event_limit : Nat := 500) (alert_limit : Nat := 50) :
    List OpenAlertsEvent × List AlertEvent :=
  let step := fun (acc : List OpenAlertsEvent × List AlertEvent)
      (line : Option JValue) =>
    match line with
    | none => acc
    | some j =>
      match classifyLine now j with
      | some (Sum.inl e) => (acc.1 ++ [e], acc.2)
      | some (Sum.inr a) => (acc.1, acc.2 ++ [a])
      | none => acc
  let acc := lines.foldl step ([], [])
  (acc.1.drop (acc.1.length - event_limit), acc.2.drop (acc.2.length - alert_limit))

/-! `warm_from_history` and its per-line step are defined after the prune
scanner below (they reuse its substring search for Python's `in` on
strings). -/

/-! ## `prune_log` (`src/core/store.py`)

Pruning works on the raw text lines of the log. A line is a Lean `String`;
`len(line)` counts characters as Python `len` does. -/

/-- Python `str.strip()`: drop leading and trailing whitespace. -/
def pyStrip (s : String) : String :=
  String.mk (((s.data.dropWhile Char.isWhitespace).reverse.dropWhile
    Char.isWhitespace).reverse)

/-- `haystack.index(needle, start)` on character lists: index of the first
occurrence of `needle` at or after position 0 of the given list. -/
def findSubIdx (needle : List Char) : List Char → Option Nat
  | [] => if needle = [] then some 0 else none
  | c :: rest =>
    if needle.take (c :: rest).length = needle ∧
        (c :: rest).take needle.length = needle then some 0
    else (findSubIdx needle rest).map (fun i => i + 1)

/-- `float(s)` restricted to strings of digits and dots (the only strings the
prune scanner can produce): defined exactly when there is at least one digit
and at most one dot. -/
def parsePyFloat (cs : List Char) : Option ℚ :=
  if (cs.filter (fun c => c = '.')).length ≤ 1 ∧
      (cs.filter Char.isDigit).length ≥ 1 ∧
      cs.all (fun c => Char.isDigit c ∨ c = '.') then
    let intPart := cs.takeWhile Char.isDigit
    let fracPart := (cs.drop (intPart.length + 1))
    let digitsToNat : List Char → Nat := fun ds =>
      ds.foldl (fun n c => 10 * n + (c.toNat - 48)) 0
    some ((digitsToNat intPart : ℚ) +
      (digitsToNat fracPart : ℚ) / (10 : ℚ) ^ fracPart.length)
  else none

/-- The timestamp scanner of `prune_log`: find `"ts"`, then the first `:`
from 3 characters later, strip spaces, take the run of digits and dots, and
parse it as a float; any failure means no parsable timestamp. -/
def extractTs (stripped : String) : Option ℚ :=
  let cs := stripped.data
  match findSubIdx ['"', 't', 's', '"'] cs with
  | none => none
  | some idx =>
    match findSubIdx [':'] (cs.drop (idx + 3)) with
    | none => none
    | some j =>
      let rest := (cs.drop (idx + 3 + j + 1)).dropWhile Char.isWhitespace
      parsePyFloat (rest.takeWhile (fun c => Char.isDigit c ∨ c = '.'))

/-- The age phase of `prune_log`: strip each line, drop blank lines, keep a
line whose extracted timestamp is at least the cutoff, and keep lines with
no parsable timestamp defensively. -/
def ageKeep (cutoff_ts : ℚ) (lines : List String) : List String :=
  lines.filterMap (fun line =>
    let stripped := pyStrip line
    if stripped = "" then none
    else
      match extractTs stripped with
      | some ts => if cutoff_ts ≤ ts then some stripped else none
      | none => some stripped)

/-- `sum(len(line) + 1 for line in kept)`: the byte size the size phase
tracks (each kept line is rewritten with a trailing newline). -/
def totalSize (kept : List String) : Nat :=
  (kept.map (fun line => line.length + 1)).sum

/-- The size phase of `prune_log`: pop lines from the front while the total
size exceeds the cap and lines remain. -/
def sizeTrim (maxBytes : Nat) : List String → List String
  | [] => []
  | line :: rest =>
    if maxBytes < totalSize (line :: rest) then sizeTrim maxBytes rest
    else line :: rest

/-- `prune_log` (`store.py`) on the lines of an existing log file: age
filter, then front-trim to the size cap; the result is rewritten as the new
file content. -/
def prune_log (lines : List String) (now : ℚ) (max_size_kb : Nat)
    (max_age_days : Nat) : List String :=
  let cutoff_ts := now - (max_age_days * 86400 : Nat)
  sizeTrim (max_size_kb * 1024) (ageKeep cutoff_ts lines)

/-! ## `warm_from_history` (`src/core/evaluator.py`)

Unlike `load_history`, whose `except` clause catches `Exception` broadly,
`warm_from_history` catches only `(json.JSONDecodeError, KeyError)`. A line
whose JSON value makes `"rule_id" in data` raise `TypeError` (a bare
number, boolean or null), or that passes the `in` check but makes
`data["fingerprint"]` raise (a string containing both substrings, a list
containing both strings), or whose fingerprint value is unhashable (a list
or object), raises an uncaught `TypeError`: `warm_from_history` aborts —
and with it `start()`. The model therefore returns `Except`: `ok` for a
completed warm, `error` for an aborted one; since Python mutates the state
in place and each line either raises before mutating or mutates cleanly,
the error payload carries the state as already warmed by the preceding
lines. -/

/-- Python `needle in haystack` on strings: substring containment. -/
def strContains (s pat : String) : Bool :=
  (findSubIdx pat.data s.data).isSome

/-- Python `t in xs` for a string `t` and a JSON array `xs`: equality with
a string holds only for equal string elements. -/
def arrHasStr (xs : List JValue) (t : String) : Bool :=
  xs.any (fun v => match v with
    | JValue.str s2 => s2 = t
    | _ => false)

/-- `data.get("ts", 0)` read as a number (a present but non-numeric `ts`,
which Python would store raw in a degenerate, self-inconsistent line, is
read as the 0 default). -/
def warmTs (fields : List (String × JValue)) : ℚ :=
  match jGet fields "ts" with
  | some (JValue.num q) => q
  | _ => 0

/-- One line of `warm_from_history`. `none` models an uncaught `TypeError`
(the line raises before any mutation); `some cds` models a completed line.
An alert-shaped object line (both `rule_id` and `fingerprint` keys) with a
string fingerprint sets `cooldowns[fingerprint] = data.get("ts", 0)`; one
with an unhashable (list/object) fingerprint raises on the dict insert. An
object line whose fingerprint is a hashable non-string (null, boolean,
number) is stored by Python under a non-string key, disjoint from every
md5-hex fingerprint; the string-keyed map model registers it as no change
(disclosed typed-model restriction). -/
def warmLineStep (cds : List (String × ℚ)) (line : Option JValue) :
    Option (List (String × ℚ)) :=
  match line with
  | none => some cds
  | some JValue.null => none
  | some (JValue.bool _) => none
  | some (JValue.num _) => none
  | some (JValue.str s2) =>
    if strContains s2 "rule_id" ∧ strContains s2 "fingerprint" then none
    else some cds
  | some (JValue.arr xs) =>
    if arrHasStr xs "rule_id" ∧ arrHasStr xs "fingerprint" then none
    else some cds
  | some (JValue.obj fields) =>
    if jHasKey fields "rule_id" ∧ jHasKey fields "fingerprint" then
      match jGet fields "fingerprint" with
      | some (JValue.str fp) =>
        some (bdSet MAX_COOLDOWN_ENTRIES cds fp (warmTs fields))
      | some (JValue.arr _) => none
      | some (JValue.obj _) => none
      | _ => some cds
    else some cds

/-- The line loop of `warm_from_history`: folds the per-line step, stopping
with `error` at the first line that raises (later lines are not reached),
carrying the cooldown map as mutated so far. -/
def warmLines : List (String × ℚ) → List (Option JValue) →
    Except (List (String × ℚ)) (List (String × ℚ))
  | cds, [] => Except.ok cds
  | cds, line :: rest =>
    match warmLineStep cds line with
    | none => Except.error cds
    | some cds2 => warmLines cds2 rest

/-- `warm_from_history` (`evaluator.py`): replay the persisted log to
restore cooldown timestamps. A missing file (`none`) restores nothing and
is not an error; otherwise the line loop runs, touching only the cooldown
map, and an uncaught `TypeError` surfaces as `Except.error` (aborting
`start()`) with the state warmed by the preceding lines. The `rules`
argument of the Python function is unused by its body and omitted. -/
def warm_from_history (state : EvaluatorState)
    (log : Option (List (Option JValue))) :
    Except EvaluatorState EvaluatorState :=
  match log with
  | none => Except.ok state
  | some lines =>
    match warmLines state.cooldowns lines with
    | Except.ok cds => Except.ok { state with cooldowns := cds }
    | Except.error cds => Except.error { state with cooldowns := cds }

/-- Join an `Except` both of whose sides carry the same type: the state a
run leaves behind, whether it completed or raised. -/
def exceptJoin {α : Type} : Except α α → α
  | Except.ok a => a
  | Except.error a => a

/-! ## The engine (`src/core/engine.py`)

The engine model covers the pieces the claims touch: the run flag, the bus
listener set, the live-events and recent-alerts ring buffers, the stats
counters, the evaluator state, the persisted log (as parsed lines;
`none` = the file does not exist), and the list of alerts handed to the
dispatcher. The background prune task, the SSE listeners and `mkdir` are
outside the model (asynchronous and filesystem-only effects). -/

/-- The only bus listener the engine ever registers: its own `_on_event`. -/
inductive EngineListener : Type where
  | onEvent : EngineListener
deriving DecidableEq, Repr

/-- `_MAX_LIVE_EVENTS` (`engine.py`). -/
def MAX_LIVE_EVENTS : Nat := 500

/-- The engine's mutable state (`OpenAlertsEngine`). -/
structure EngineState : Type where
  config : OpenAlertsConfig
  running : Bool
  busListeners : List EngineListener
  liveEvents : List OpenAlertsEvent
  recentAlerts : List AlertEvent
  stats : List (String × Nat)
  evalState : EvaluatorState
  log : Option (List (Option JValue))
  dispatched : List AlertEvent
  startedAt : ℚ

/-- `OpenAlertsEngine.__init__` at clock `now`, over an on-disk log that may
pre-exist the process (`existingLog`): wires `_on_event` onto the bus, zeroes
the counters, and does not touch the log. -/
def engineInit (config : OpenAlertsConfig)
    (existingLog : Option (List (Option JValue))) (now : ℚ) : EngineState :=
  { config := config
    running := false
    busListeners := [EngineListener.onEvent]
    liveEvents := []
    recentAlerts := []
    stats := [("events_processed", 0), ("llm_calls", 0), ("llm_errors", 0),
              ("tool_calls", 0), ("tool_errors", 0), ("agent_starts", 0),
              ("agent_errors", 0), ("agent_steps", 0), ("tokens_used", 0)]
    evalState := initEvaluatorState now
    log := existingLog
    dispatched := []
    startedAt := 0 }

/-- The `_stat_map` of `_on_event`: which counter an event type bumps. -/
def statKey : EventType → Option String
  | .llm_call => some "llm_calls"
  | .llm_error => some "llm_errors"
  | .tool_call => some "tool_calls"
  | .tool_error => some "tool_errors"
  | .agent_start => some "agent_starts"
  | .agent_error => some "agent_errors"
  | .agent_step => some "agent_steps"
  | _ => none

/-- The per-alert bookkeeping of `_on_event`: recent-alerts buffer,
dispatch unless quiet, persistence of the alert. -/
def onAlertStep (es : EngineState) (alert : AlertEvent) : EngineState :=
  let es := { es with recentAlerts := boundedAppend 50 es.recentAlerts alert }
  let es := if ¬ es.config.quiet then
      { es with dispatched := es.dispatched ++ [alert] }
    else es
  if es.config.persist then
    { es with log := some ((es.log.getD []) ++ [some (alertToJson alert)]) }
  else es

/-- `OpenAlertsEngine._on_event`: live buffer, counters, persistence, rule
evaluation, and per-alert bookkeeping. -/
def onEventStep (es : EngineState) (event : OpenAlertsEvent) (now : ℚ) :
    EngineState :=
  let es := { es with
    liveEvents := boundedAppend MAX_LIVE_EVENTS es.liveEvents event
    stats := alSet es.stats "events_processed"
      (alGetD es.stats "events_processed" 0 + 1) }
  let es := match statKey event.type with
    | some k => { es with stats := alSet es.stats k (alGetD es.stats k 0 + 1) }
    | none => es
  let es := match event.token_count with
    | some n =>
      if ¬ n = 0 ∧ event.type = EventType.llm_token_usage then
        let used := alGetD es.stats "tokens_used" 0 + n.toNat
        { es with stats := alSet es.stats "tokens_used" used }
      else es
    | none => es
  let es := if es.config.persist then
      { es with log := some ((es.log.getD []) ++ [some (eventToJson event)]) }
    else es
  let pr := process_event es.evalState es.config event ALL_RULES now
  let es := { es with evalState := pr.1 }
  pr.2.foldl onAlertStep es

/-- `OpenAlertsEngine.ingest`: no-op unless running, else emit on the bus;
`emit` invokes every registered listener. -/
def engineIngest (es : EngineState) (event : OpenAlertsEvent) (now : ℚ) :
    EngineState :=
  if ¬ es.running then es
  else
    es.busListeners.foldl
      (fun es l => match l with | EngineListener.onEvent => onEventStep es event now)
      es

/-- `OpenAlertsEngine.start` at clock `now`: warm the cooldown map from
history, load bounded history into the ring buffers, mark running, record
the start time. (Launching the prune task is outside the model.) On a log
where the warm raises, Python aborts `start()` with the exception; the
model continues from the partially warmed state, so its value is reached
only for logs on which the warm completes — which includes every log the
engine itself writes. -/
def engineStart (es : EngineState) (now : ℚ) : EngineState :=
  let st := exceptJoin (warm_from_history es.evalState es.log)
  let hist := loadHistoryLines now (es.log.getD [])
  { es with
    evalState := st
    liveEvents := hist.1.foldl (boundedAppend MAX_LIVE_EVENTS) es.liveEvents
    recentAlerts := hist.2.foldl (boundedAppend 50) es.recentAlerts
    running := true
    startedAt := now }

/-- `OpenAlertsEngine.stop`: mark not running, cancel the prune task
(outside the model), and clear the bus listener set. -/
def engineStop (es : EngineState) : EngineState :=
  { es with running := false, busListeners := [] }

/-! ## Theorems -/

/-- C1: the claimed cooldown priority "per-rule override > global config >
rule default" does not hold in `_get_cooldown`: with the global
`cooldown_seconds` set to 100 and no per-rule override, the effective
cooldown is the rule's own default 900 and the global value is ignored
(`config.cooldown_seconds` is never consulted), contradicting the priority
announced by the function's own source comment. With an override of 300 the
override wins, as both sides agree. -/
theorem c1_get_cooldown_ignores_global_config :
    _get_cooldown ({ cooldown_seconds := 100 } : OpenAlertsConfig) AgentStuckRule = 900 ∧
    ({ cooldown_seconds := 100 } : OpenAlertsConfig).cooldown_seconds = 100 ∧
    AgentStuckRule.default_cooldown_seconds = 900 ∧
    _get_cooldown
      ({ cooldown_seconds := 100,
         rules := [("agent-stuck", { cooldown_seconds := some 300 })] } :
        OpenAlertsConfig) AgentStuckRule = 300 :=
  ⟨rfl, rfl, rfl, rfl⟩

/-- A tool-call event at time `t`. -/
def toolCallEv (t : ℚ) : OpenAlertsEvent :=
  { type := EventType.tool_call, ts := t }

/-- A tool-error event at time `t`. -/
def toolErrEv (t : ℚ) : OpenAlertsEvent :=
  { type := EventType.tool_error, ts := t }

/-- A context whose high-error-rate window holds `nErr` tool errors and
`nCall` tool calls, all inside the 300s window, under default config. -/
def herCtx (nErr nCall : Nat) : RuleContext :=
  { windows := [("high-error-rate",
      List.replicate nErr (toolErrEv 300) ++ List.replicate nCall (toolCallEv 300))]
    config := {}
    now := 300 }

/-- C7: `HighErrorRateRule` fires on an event exactly when the event is a
tool call or tool error, at least 20 tool events lie in the last-300s
window, and the error rate of the most recent 20 of them strictly exceeds
the threshold percent; in particular with fewer than 20 tool events it
never fires. Concretely, 11 errors of 20 (55% > 50%) fires and 10 of 20
(50%, not strictly above) does not. -/
theorem c7_high_error_rate_characterisation :
    (∀ (e : OpenAlertsEvent) (ctx : RuleContext),
      (HighErrorRateRule.evaluate e ctx).isSome = true ↔
        ((e.type = EventType.tool_call ∨ e.type = EventType.tool_error) ∧
          20 ≤ (herToolEvents ctx).length ∧
          ctx.get_threshold "high-error-rate" 50 < herRate ctx)) ∧
    (HighErrorRateRule.evaluate (toolErrEv 300) (herCtx 11 9)).isSome = true ∧
    (HighErrorRateRule.evaluate (toolErrEv 300) (herCtx 10 10)).isSome = false := by
  have main : ∀ (e : OpenAlertsEvent) (ctx : RuleContext),
      (HighErrorRateRule.evaluate e ctx).isSome = true ↔
        ((e.type = EventType.tool_call ∨ e.type = EventType.tool_error) ∧
          20 ≤ (herToolEvents ctx).length ∧
          ctx.get_threshold "high-error-rate" 50 < herRate ctx) := by
    intro e ctx
    simp only [HighErrorRateRule]
    by_cases h1 : e.type = EventType.tool_call ∨ e.type = EventType.tool_error
    · simp only [if_pos h1]
      by_cases h2 : (herToolEvents ctx).length < 20
      · simp only [if_pos h2, Option.isSome_none]
        exact iff_of_false (by simp) (fun hc => absurd hc.2.1 (by omega))
      · simp only [if_neg h2]
        by_cases h3 : ctx.get_threshold "high-error-rate" 50 < herRate ctx
        · simp only [if_pos h3, Option.isSome_some]
          exact iff_of_true trivial ⟨h1, by omega, h3⟩
        · simp only [if_neg h3, Option.isSome_none]
          exact iff_of_false (by simp) (fun hc => absurd hc.2.2 h3)
    · simp only [if_neg h1, Option.isSome_none]
      exact iff_of_false (by simp) (fun hc => absurd hc.1 h1)
  have hlen11 : (herToolEvents (herCtx 11 9)).length = 20 := by
    simp [herToolEvents, herCtx, RuleContext.get_window, alGet, toolErrEv, toolCallEv]
  have hlen10 : (herToolEvents (herCtx 10 10)).length = 20 := by
    simp [herToolEvents, herCtx, RuleContext.get_window, alGet, toolErrEv, toolCallEv]
  have hthr : ∀ nErr nCall : Nat,
      (herCtx nErr nCall).get_threshold "high-error-rate" 50 = 50 := by
    intro nErr nCall
    simp [RuleContext.get_threshold, herCtx, alGet]
  have hrate11 : herRate (herCtx 11 9) = 55 := by
    have : herErrors (herCtx 11 9) = List.replicate 11 (toolErrEv 300) := by
      simp [herErrors, herRecent, hlen11, herToolEvents, herCtx,
        RuleContext.get_window, alGet, toolErrEv, toolCallEv,
        List.filter_append, List.filter_replicate]
    rw [herRate, this]
    norm_num
  have hrate10 : herRate (herCtx 10 10) = 50 := by
    have : herErrors (herCtx 10 10) = List.replicate 10 (toolErrEv 300) := by
      simp [herErrors, herRecent, hlen10, herToolEvents, herCtx,
        RuleContext.get_window, alGet, toolErrEv, toolCallEv,
        List.filter_append, List.filter_replicate]
    rw [herRate, this]
    norm_num
  refine ⟨main, ?_, ?_⟩
  · exact (main _ _).mpr ⟨Or.inr rfl, by omega, by rw [hthr, hrate11]; norm_num⟩
  · rw [Bool.eq_false_iff]
    intro h
    have := (main _ _).mp (by simpa using h)
    rw [hthr, hrate10] at this
    exact absurd this.2.2 (by norm_num)

/-- An agent-step event with the given step counters. -/
def stepEv (n m : Int) : OpenAlertsEvent :=
  { type := EventType.agent_step, ts := 0, step_number := some n,
    max_steps := some m }

/-- An empty-window context under default config at time 0. -/
def emptyCtx : RuleContext :=
  { windows := [], config := {}, now := 0 }

/-- C8: on an `agent.step` event carrying both counters (with a positive
denominator, since Python raises `ZeroDivisionError` at `max_steps = 0`),
`StepLimitWarningRule` fires exactly when `(step/max_steps)*100` is at
least the threshold percent; any other event type, or a missing counter,
never fires. -/
theorem c8_step_limit_warning_characterisation :
    (∀ (e : OpenAlertsEvent) (ctx : RuleContext) (n m : Int),
      e.type = EventType.agent_step → e.step_number = some n →
      e.max_steps = some m → m ≠ 0 →
      ((StepLimitWarningRule.evaluate e ctx).isSome = true ↔
        ctx.get_threshold "step-limit-warning" 80 ≤ (n : ℚ) / (m : ℚ) * 100)) ∧
    (∀ (e : OpenAlertsEvent) (ctx : RuleContext),
      ¬ e.type = EventType.agent_step → StepLimitWarningRule.evaluate e ctx = none) ∧
    (∀ (e : OpenAlertsEvent) (ctx : RuleContext),
      e.step_number = none → StepLimitWarningRule.evaluate e ctx = none) ∧
    (∀ (e : OpenAlertsEvent) (ctx : RuleContext),
      e.max_steps = none → StepLimitWarningRule.evaluate e ctx = none) := by
  refine ⟨?_, ?_, ?_, ?_⟩
  · intro e ctx n m hty hn hm _
    simp only [StepLimitWarningRule, hty, hn, hm, if_true, if_pos rfl]
    split_ifs with h
    · simp [h]
    · simp [h]
  · intro e ctx hty
    simp [StepLimitWarningRule, hty]
  · intro e ctx hn
    simp [StepLimitWarningRule, hn]
  · intro e ctx hm
    cases hn : e.step_number <;> simp [StepLimitWarningRule, hn, hm]

/-- C8 witness: at step 9 of 10 (90% ≥ 80%) the rule fires under the
default threshold; at 7 of 10 it does not. -/
theorem c8_step_limit_warning_witness :
    ((stepEv 9 10).type = EventType.agent_step ∧ (10 : Int) ≠ 0 ∧
      (StepLimitWarningRule.evaluate (stepEv 9 10) emptyCtx).isSome = true) ∧
    ((7 : ℚ) / 10 * 100 < 80 ∧
      ¬ (StepLimitWarningRule.evaluate (stepEv 7 10) emptyCtx).isSome = true) :=
  ⟨⟨rfl, by decide,
    (c8_step_limit_warning_characterisation.1 (stepEv 9 10) emptyCtx 9 10 rfl rfl rfl
      (by decide)).mpr
      (by norm_num [emptyCtx, RuleContext.get_threshold, alGet])⟩,
   ⟨by norm_num,
    fun h => by
      have := (c8_step_limit_warning_characterisation.1 (stepEv 7 10) emptyCtx 7 10 rfl rfl rfl
        (by decide)).mp h
      rw [show emptyCtx.get_threshold "step-limit-warning" 80 = 80 from by
        simp [emptyCtx, RuleContext.get_threshold, alGet]] at this
      exact absurd this (by norm_num)⟩⟩

/-! ### Cooldown suppression (C3) -/

/-- The hourly reset touches only the counter and the bucket start. -/
theorem reset_hour_windows (s : EvaluatorState) (now : ℚ) :
    (_reset_hour_if_needed s now).windows = s.windows := by
  unfold _reset_hour_if_needed
  split <;> rfl

/-- The hourly reset leaves the cooldown map unchanged. -/
theorem reset_hour_cooldowns (s : EvaluatorState) (now : ℚ) :
    (_reset_hour_if_needed s now).cooldowns = s.cooldowns := by
  unfold _reset_hour_if_needed
  split <;> rfl

/-- Setting a fingerprint in the bounded cooldown map always lets that very
fingerprint be read back (the new entry sits at the recent end, so front
eviction never removes it while the capacity is at least one). -/
theorem bdGet_bdSet_self (maxSize : Nat) (hm : 1 ≤ maxSize)
    (m : List (String × ℚ)) (k : String) (v : ℚ) :
    bdGet (bdSet maxSize m k v) k = some v := by
  unfold bdSet bdGet
  set l := m.filter (fun p => ¬ p.1 = k) with hl
  have hd : (l ++ [(k, v)]).length - maxSize ≤ l.length := by
    simp only [List.length_append, List.length_cons, List.length_nil]
    omega
  rw [List.drop_append_of_le_length hd, List.find?_append]
  have hnone : ((l.drop ((l ++ [(k, v)]).length - maxSize)).find?
      (fun p => decide (p.1 = k))) = none := by
    rw [List.find?_eq_none]
    intro x hx
    have hxl : x ∈ l := List.drop_subset _ _ hx
    rw [hl] at hxl
    have := List.of_mem_filter hxl
    simpa using this
  rw [hnone]
  simp

/-- `process_event` over a one-rule list is a single `processRuleStep` on the
state after the hourly refresh and the window append. -/
theorem process_event_single (s : EvaluatorState) (cfg : OpenAlertsConfig)
    (e : OpenAlertsEvent) (r : AlertRule) (now : ℚ) :
    process_event s cfg e [r] now =
      processRuleStep cfg e now
        ({ _reset_hour_if_needed s now with
            windows := appendToWindows [r] (_reset_hour_if_needed s now).windows e },
          []) r := rfl

/-- Inversion of a fired alert: when a one-rule `processRuleStep` from an
empty fired list reports exactly `[a]`, the rule was enabled, its evaluation
returned `a`, and the cooldown map was stamped at `a.fingerprint := now`. -/
theorem processRuleStep_single_fired (cfg : OpenAlertsConfig)
    (event : OpenAlertsEvent) (now : ℚ) (st : EvaluatorState) (r : AlertRule)
    (a : AlertEvent)
    (h : (processRuleStep cfg event now (st, []) r).2 = [a]) :
    _is_rule_enabled cfg r.id = true ∧
    r.evaluate event ⟨st.windows, cfg, now⟩ = some a ∧
    (processRuleStep cfg event now (st, []) r).1.cooldowns =
      bdSet MAX_COOLDOWN_ENTRIES st.cooldowns a.fingerprint now := by
  unfold processRuleStep at h ⊢
  by_cases h1 : _is_rule_enabled cfg r.id = true
  · simp only [h1, not_true_eq_false, if_false] at h ⊢
    cases hev : r.evaluate event ⟨st.windows, cfg, now⟩ with
    | none =>
      rw [hev] at h
      exact absurd h (by simp)
    | some alert =>
      rw [hev] at h
      by_cases h2 : _is_cooled_down st alert.fingerprint (_get_cooldown cfg r) now = true
      · simp only [h2, not_true_eq_false, if_false] at h ⊢
        by_cases h3 : cfg.max_alerts_per_hour ≤ st.alerts_this_hour
        · rw [if_pos h3] at h
          exact absurd h (by simp)
        · rw [if_neg h3] at h
          rw [if_neg h3]
          have ha : alert = a := by simpa using h
          refine ⟨trivial, by rw [ha], ?_⟩
          rw [ha]
      · simp only [h2, not_false_eq_true, if_true] at h
        exact absurd h (by simp)
  · rw [if_pos (by simpa using h1)] at h
    exact absurd h (by simp)

/-- A one-rule `processRuleStep` whose (possible) alert is not cooled down
fires nothing. -/
theorem processRuleStep_suppressed (cfg : OpenAlertsConfig)
    (event : OpenAlertsEvent) (now : ℚ) (st : EvaluatorState) (r : AlertRule)
    (h : ∀ a, r.evaluate event ⟨st.windows, cfg, now⟩ = some a →
      ¬ _is_cooled_down st a.fingerprint (_get_cooldown cfg r) now = true) :
    (processRuleStep cfg event now (st, []) r).2 = [] := by
  unfold processRuleStep
  by_cases h1 : _is_rule_enabled cfg r.id = true
  · simp only [h1, not_true_eq_false, if_false]
    cases hev : r.evaluate event ⟨st.windows, cfg, now⟩ with
    | none => rfl
    | some alert =>
      have hnc := h alert hev
      dsimp only
      rw [if_pos hnc]
  · rw [if_pos (by simpa using h1)]

/-- C3: if processing a first event at time `t1` fires exactly the alert
`a1`, and a second event processed at time `t2` evaluates (in the state left
by the first) to an alert with the same fingerprint while `t2 - t1` is less
than the effective cooldown, then the second processing fires nothing:
exactly one of the two alerts fires. -/
theorem c3_cooldown_suppresses_second (s : EvaluatorState)
    (cfg : OpenAlertsConfig) (r : AlertRule) (e1 e2 : OpenAlertsEvent)
    (t1 t2 : ℚ) (a1 a2 : AlertEvent)
    (h1 : (process_event s cfg e1 [r] t1).2 = [a1])
    (h2 : r.evaluate e2
      ⟨appendToWindows [r] (process_event s cfg e1 [r] t1).1.windows e2, cfg, t2⟩ =
      some a2)
    (h3 : a2.fingerprint = a1.fingerprint)
    (h4 : t2 - t1 < ((_get_cooldown cfg r : Int) : ℚ)) :
    (process_event (process_event s cfg e1 [r] t1).1 cfg e2 [r] t2).2 = [] := by
  rw [process_event_single] at h1
  obtain ⟨-, -, hcd⟩ := processRuleStep_single_fired _ _ _ _ _ _ h1
  rw [process_event_single]
  apply processRuleStep_suppressed
  intro a hev
  have hwin : ({ _reset_hour_if_needed (process_event s cfg e1 [r] t1).1 t2 with
      windows := appendToWindows [r]
        (_reset_hour_if_needed (process_event s cfg e1 [r] t1).1 t2).windows e2 } :
      EvaluatorState).windows =
      appendToWindows [r] (process_event s cfg e1 [r] t1).1.windows e2 := by
    rw [reset_hour_windows]
  rw [hwin] at hev
  have ha : a = a2 := by
    rw [hev] at h2
    exact Option.some_inj.mp h2
  rw [ha]
  have hcds : ({ _reset_hour_if_needed (process_event s cfg e1 [r] t1).1 t2 with
      windows := appendToWindows [r]
        (_reset_hour_if_needed (process_event s cfg e1 [r] t1).1 t2).windows e2 } :
      EvaluatorState).cooldowns = (process_event s cfg e1 [r] t1).1.cooldowns := by
    rw [reset_hour_cooldowns]
  have hget : bdGet
      ({ _reset_hour_if_needed (process_event s cfg e1 [r] t1).1 t2 with
        windows := appendToWindows [r]
          (_reset_hour_if_needed (process_event s cfg e1 [r] t1).1 t2).windows e2 } :
        EvaluatorState).cooldowns a2.fingerprint = some t1 := by
    rw [hcds, process_event_single, hcd, h3]
    exact bdGet_bdSet_self MAX_COOLDOWN_ENTRIES (by decide) _ _ _
  rw [_is_cooled_down, hget]
  simp only [decide_eq_true_eq]
  intro hle
  exact absurd h4 (not_lt.mpr hle)

/-- An `agent.stuck` event at time `t`. -/
def stuckEv (t : ℚ) : OpenAlertsEvent :=
  { type := EventType.agent_stuck, ts := t }

/-- The alert the agent-stuck rule fires at time `t` for an anonymous agent. -/
def stuckAlertAt (t : ℚ) : AlertEvent :=
  { rule_id := "agent-stuck", severity := Severity.warn, title := "Agent Stuck",
    detail := "Agent 'unknown' appears stuck (repeating actions).",
    fingerprint := fingerprint ["agent-stuck", ""], ts := t, events := [stuckEv t] }

/-- C3 witness: two anonymous agent-stuck events 100s apart under the
default 900s cooldown — the first processing fires exactly one alert and the
second fires none. -/
theorem c3_cooldown_suppresses_second_witness :
    (process_event (initEvaluatorState 0) {} (stuckEv 0) [AgentStuckRule] 0).2 =
      [stuckAlertAt 0] ∧
    (100 : ℚ) - 0 < ((_get_cooldown {} AgentStuckRule : Int) : ℚ) ∧
    (process_event (process_event (initEvaluatorState 0) {} (stuckEv 0)
      [AgentStuckRule] 0).1 {} (stuckEv 100) [AgentStuckRule] 100).2 = [] := by
  have h1 : (process_event (initEvaluatorState 0) {} (stuckEv 0) [AgentStuckRule] 0).2 =
      [stuckAlertAt 0] := by
    norm_num [process_event, _reset_hour_if_needed, appendToWindows, processRuleStep,
      _is_rule_enabled, _is_cooled_down, _get_cooldown, AgentStuckRule, alGet, alSet,
      alGetD, bdGet, bdSet, boundedAppend, initEvaluatorState, pyOr, stuckEv, stuckAlertAt]
    all_goals rfl
  have h2 : AgentStuckRule.evaluate (stuckEv 100)
      ⟨appendToWindows [AgentStuckRule]
        (process_event (initEvaluatorState 0) {} (stuckEv 0) [AgentStuckRule] 0).1.windows
        (stuckEv 100), {}, 100⟩ = some (stuckAlertAt 100) := by
    norm_num [AgentStuckRule, stuckEv, pyOr, stuckAlertAt]
    all_goals rfl
  have h4 : (100 : ℚ) - 0 < ((_get_cooldown {} AgentStuckRule : Int) : ℚ) := by
    norm_num [_get_cooldown, AgentStuckRule, alGet]
  exact ⟨h1, h4,
    c3_cooldown_suppresses_second (initEvaluatorState 0) {} AgentStuckRule
      (stuckEv 0) (stuckEv 100) 0 100 (stuckAlertAt 0) (stuckAlertAt 100)
      h1 h2 rfl h4⟩

/-! ### Window population and bounds (C5) -/

/-- Processing a whole sequence of (event, clock) pairs, collecting every
fired alert. -/
def processSeq (cfg : OpenAlertsConfig) (rules : List AlertRule) :
    EvaluatorState → List (OpenAlertsEvent × ℚ) → EvaluatorState × List AlertEvent
  | s, [] => (s, [])
  | s, (e, t) :: rest =>
    let pr := process_event s cfg e rules t
    let tail := processSeq cfg rules pr.1 rest
    (tail.1, pr.2 ++ tail.2)

/-- The last `n` entries of a list, in order: what a full `deque(maxlen=n)`
retains. -/
def takeLast {α : Type} (n : Nat) (l : List α) : List α :=
  l.drop (l.length - n)

/-- Length of `takeLast`. -/
theorem takeLast_length {α : Type} (n : Nat) (l : List α) :
    (takeLast n l).length = l.length - (l.length - n) := by
  simp [takeLast]

/-- Re-bounding an already bounded list before appending changes nothing. -/
theorem takeLast_takeLast_append {α : Type} (n : Nat) (l es : List α) :
    takeLast n (takeLast n l ++ es) = takeLast n (l ++ es) := by
  unfold takeLast
  rw [← List.drop_append_of_le_length (by omega : l.length - n ≤ l.length),
    List.drop_drop]
  have harith : (l.length - n) + (((l ++ es).drop (l.length - n)).length - n) =
      (l ++ es).length - n := by
    simp only [List.length_drop, List.length_append]
    omega
  rw [← harith]

/-- Folding bounded appends over a sequence keeps exactly the last `n`
entries of the concatenation, provided the start is within the bound. -/
theorem foldl_boundedAppend {α : Type} (n : Nat) :
    ∀ (es : List α) (w : List α), w.length ≤ n →
      es.foldl (boundedAppend n) w = takeLast n (w ++ es)
  | [], w => by
    intro hw
    simp [takeLast, Nat.sub_eq_zero_of_le hw]
  | e :: es, w => by
    intro hw
    rw [List.foldl_cons]
    have hba : boundedAppend n w e = takeLast n (w ++ [e]) := rfl
    have hlen : (takeLast n (w ++ [e])).length ≤ n := by
      rw [takeLast_length]
      omega
    rw [hba, foldl_boundedAppend n es _ hlen, takeLast_takeLast_append]
    congr 1
    simp

/-- Reading back the key just set in a Python dict. -/
theorem alGet_alSet_self {α : Type} (m : List (String × α)) (k : String) (v : α) :
    alGet (alSet m k v) k = some v := by
  unfold alSet alGet
  by_cases hmem : m.any (fun p => p.1 = k) = true
  · rw [if_pos hmem, List.find?_map]
    have hpred : ((fun p : String × α => decide (p.1 = k)) ∘
        (fun p : String × α => if p.1 = k then (k, v) else p)) =
        fun p : String × α => decide (p.1 = k) := by
      funext p
      by_cases hp : p.1 = k <;> simp [hp]
    rw [hpred]
    obtain ⟨x, hx, hpx⟩ := List.any_eq_true.mp hmem
    cases hfind : m.find? (fun p : String × α => decide (p.1 = k)) with
    | none =>
      rw [List.find?_eq_none] at hfind
      exact absurd hpx (by simpa using hfind x hx)
    | some p0 =>
      have hp0 := List.find?_some hfind
      simp only [decide_eq_true_eq] at hp0
      simp [hp0]
  · rw [if_neg hmem, List.find?_append]
    have hnone : m.find? (fun p : String × α => decide (p.1 = k)) = none := by
      rw [List.find?_eq_none]
      intro x hx
      simp only [decide_eq_true_eq]
      intro hc
      exact hmem (List.any_eq_true.mpr ⟨x, hx, by simp [hc]⟩)
    rw [hnone]
    simp

/-- Setting one key of a Python dict leaves every other key unchanged. -/
theorem alGet_alSet_ne {α : Type} (m : List (String × α)) (k k2 : String)
    (v : α) (h : ¬ k2 = k) : alGet (alSet m k v) k2 = alGet m k2 := by
  unfold alSet alGet
  by_cases hmem : m.any (fun p => p.1 = k) = true
  · rw [if_pos hmem, List.find?_map]
    have hpred : ((fun p : String × α => decide (p.1 = k2)) ∘
        (fun p : String × α => if p.1 = k then (k, v) else p)) =
        fun p : String × α => decide (p.1 = k2) := by
      funext p
      by_cases hp : p.1 = k
      · simp [hp]
      · simp [hp]
    rw [hpred]
    cases hfind : m.find? (fun p : String × α => decide (p.1 = k2)) with
    | none => simp
    | some p0 =>
      have hp0 := List.find?_some hfind
      simp only [decide_eq_true_eq] at hp0
      have : ¬ p0.1 = k := by rw [hp0]; exact h
      simp [this]
  · rw [if_neg hmem, List.find?_append]
    have h2 : ([(k, v)].find? (fun p : String × α => decide (p.1 = k2))) = none := by
      have hkk : ¬ k = k2 := fun hc => h hc.symm
      simp [hkk]
    rw [h2]
    simp

/-- The per-rule evaluation loop never touches the windows. -/
theorem processRuleStep_windows (cfg : OpenAlertsConfig) (e : OpenAlertsEvent)
    (now : ℚ) (acc : EvaluatorState × List AlertEvent) (r : AlertRule) :
    (processRuleStep cfg e now acc r).1.windows = acc.1.windows := by
  obtain ⟨st, fired⟩ := acc
  unfold processRuleStep
  dsimp only
  split
  · rfl
  · split
    · rfl
    · split
      · rfl
      · split
        · rfl
        · rfl

/-- Folding the evaluation loop never touches the windows. -/
theorem foldl_processRuleStep_windows (cfg : OpenAlertsConfig)
    (e : OpenAlertsEvent) (now : ℚ) :
    ∀ (rules : List AlertRule) (acc : EvaluatorState × List AlertEvent),
      (rules.foldl (processRuleStep cfg e now) acc).1.windows = acc.1.windows := by
  intro rules
  induction rules with
  | nil => intro acc; rfl
  | cons r rest ih =>
    intro acc
    rw [List.foldl_cons, ih, processRuleStep_windows]

/-- After `process_event`, the windows are exactly the old windows with the
event appended for every registered rule. -/
theorem process_event_windows (s : EvaluatorState) (cfg : OpenAlertsConfig)
    (e : OpenAlertsEvent) (rules : List AlertRule) (now : ℚ) :
    (process_event s cfg e rules now).1.windows =
      appendToWindows rules s.windows e := by
  unfold process_event
  rw [foldl_processRuleStep_windows]
  rw [show ∀ st : EvaluatorState, ({ st with
      windows := appendToWindows rules st.windows e } : EvaluatorState).windows =
      appendToWindows rules st.windows e from fun st => rfl]
  rw [reset_hour_windows]

/-- Appending an event for rules none of which carry the key `rid` leaves
the window of `rid` unchanged. -/
theorem appendToWindows_get_notmem (e : OpenAlertsEvent) (rid : String) :
    ∀ (rules : List AlertRule) (ws : List (String × List OpenAlertsEvent)),
      (∀ r2 ∈ rules, ¬ r2.id = rid) →
      alGet (appendToWindows rules ws e) rid = alGet ws rid := by
  intro rules
  induction rules with
  | nil => intro ws _; rfl
  | cons r rest ih =>
    intro ws h
    rw [show appendToWindows (r :: rest) ws e = appendToWindows rest
      (alSet ws r.id (boundedAppend MAX_WINDOW_ENTRIES (alGetD ws r.id []) e)) e
      from rfl]
    rw [ih _ (fun r2 hr2 => h r2 (List.mem_cons_of_mem _ hr2))]
    exact alGet_alSet_ne _ _ _ _ (fun hc => h r (List.mem_cons_self _ _) hc.symm)

/-- Every registered rule's window receives the event (when rule ids are
distinct, each exactly once). -/
theorem appendToWindows_get (e : OpenAlertsEvent) :
    ∀ (rules : List AlertRule) (ws : List (String × List OpenAlertsEvent))
      (r : AlertRule), r ∈ rules → (rules.map AlertRule.id).Nodup →
      alGet (appendToWindows rules ws e) r.id =
        some (boundedAppend MAX_WINDOW_ENTRIES (alGetD ws r.id []) e) := by
  intro rules
  induction rules with
  | nil => intro ws r hr _; exact absurd hr (List.not_mem_nil _)
  | cons r0 rest ih =>
    intro ws r hr hnd
    rw [List.map_cons, List.nodup_cons] at hnd
    rw [show appendToWindows (r0 :: rest) ws e = appendToWindows rest
      (alSet ws r0.id (boundedAppend MAX_WINDOW_ENTRIES (alGetD ws r0.id []) e)) e
      from rfl]
    rcases List.mem_cons.mp hr with heq | hmem
    · subst heq
      have hne : ∀ r2 ∈ rest, ¬ r2.id = r.id := by
        intro r2 hr2 hc
        exact hnd.1 (by rw [← hc]; exact List.mem_map_of_mem _ hr2)
      rw [appendToWindows_get_notmem _ _ _ _ hne, alGet_alSet_self]
    · have hne0 : ¬ r.id = r0.id := by
        intro hc
        exact hnd.1 (by rw [← hc]; exact List.mem_map_of_mem _ hmem)
      rw [ih _ r hmem hnd.2]
      rw [show alGetD (alSet ws r0.id
        (boundedAppend MAX_WINDOW_ENTRIES (alGetD ws r0.id []) e)) r.id [] =
        alGetD ws r.id [] from by rw [alGetD, alGet_alSet_ne _ _ _ _ hne0]; rfl]

/-- C5: (i) processing any event appends it to the window of every
registered rule — with no hypothesis on the rule being enabled or matching;
(ii) over any processed sequence, a rule's window holds exactly the most
recent events of the concatenated history, in arrival order, capped at
`MAX_WINDOW_ENTRIES = 100`; (iii) hence a window never exceeds 100 entries. -/
theorem c5_windows_bounded_and_fifo :
    (∀ (s : EvaluatorState) (cfg : OpenAlertsConfig) (e : OpenAlertsEvent)
      (rules : List AlertRule) (now : ℚ) (r : AlertRule),
      r ∈ rules → (rules.map AlertRule.id).Nodup →
      alGet (process_event s cfg e rules now).1.windows r.id =
        some (boundedAppend MAX_WINDOW_ENTRIES (alGetD s.windows r.id []) e)) ∧
    (∀ (cfg : OpenAlertsConfig) (rules : List AlertRule)
      (seq : List (OpenAlertsEvent × ℚ)) (s : EvaluatorState) (r : AlertRule),
      r ∈ rules → (rules.map AlertRule.id).Nodup →
      (alGetD s.windows r.id []).length ≤ MAX_WINDOW_ENTRIES →
      alGetD (processSeq cfg rules s seq).1.windows r.id [] =
        takeLast MAX_WINDOW_ENTRIES (alGetD s.windows r.id [] ++ seq.map Prod.fst)) ∧
    (∀ (cfg : OpenAlertsConfig) (rules : List AlertRule)
      (seq : List (OpenAlertsEvent × ℚ)) (s : EvaluatorState) (r : AlertRule),
      r ∈ rules → (rules.map AlertRule.id).Nodup →
      (alGetD s.windows r.id []).length ≤ MAX_WINDOW_ENTRIES →
      (alGetD (processSeq cfg rules s seq).1.windows r.id []).length ≤
        MAX_WINDOW_ENTRIES) := by
  have part1 : ∀ (s : EvaluatorState) (cfg : OpenAlertsConfig)
      (e : OpenAlertsEvent) (rules : List AlertRule) (now : ℚ) (r : AlertRule),
      r ∈ rules → (rules.map AlertRule.id).Nodup →
      alGet (process_event s cfg e rules now).1.windows r.id =
        some (boundedAppend MAX_WINDOW_ENTRIES (alGetD s.windows r.id []) e) := by
    intro s cfg e rules now r hr hnd
    rw [process_event_windows]
    exact appendToWindows_get e rules s.windows r hr hnd
  have part2 : ∀ (cfg : OpenAlertsConfig) (rules : List AlertRule)
      (seq : List (OpenAlertsEvent × ℚ)) (s : EvaluatorState) (r : AlertRule),
      r ∈ rules → (rules.map AlertRule.id).Nodup →
      (alGetD s.windows r.id []).length ≤ MAX_WINDOW_ENTRIES →
      alGetD (processSeq cfg rules s seq).1.windows r.id [] =
        takeLast MAX_WINDOW_ENTRIES (alGetD s.windows r.id [] ++ seq.map Prod.fst) := by
    intro cfg rules seq
    induction seq with
    | nil =>
      intro s r _ _ hw
      rw [show processSeq cfg rules s [] = (s, []) from rfl]
      simp [takeLast, Nat.sub_eq_zero_of_le hw]
    | cons p rest ih =>
      intro s r hr hnd hw
      obtain ⟨e, t⟩ := p
      rw [show processSeq cfg rules s ((e, t) :: rest) =
        ((processSeq cfg rules (process_event s cfg e rules t).1 rest).1,
          (process_event s cfg e rules t).2 ++
            (processSeq cfg rules (process_event s cfg e rules t).1 rest).2) from rfl]
      have hstep := part1 s cfg e rules t r hr hnd
      have hstepD : alGetD (process_event s cfg e rules t).1.windows r.id [] =
          boundedAppend MAX_WINDOW_ENTRIES (alGetD s.windows r.id []) e := by
        rw [alGetD, hstep]
        rfl
      have hlen : (alGetD (process_event s cfg e rules t).1.windows r.id []).length ≤
          MAX_WINDOW_ENTRIES := by
        rw [hstepD,
          show boundedAppend MAX_WINDOW_ENTRIES (alGetD s.windows r.id []) e =
            takeLast MAX_WINDOW_ENTRIES (alGetD s.windows r.id [] ++ [e]) from rfl,
          takeLast_length]
        omega
      rw [ih _ r hr hnd hlen, hstepD,
        show boundedAppend MAX_WINDOW_ENTRIES (alGetD s.windows r.id []) e =
          takeLast MAX_WINDOW_ENTRIES (alGetD s.windows r.id [] ++ [e]) from rfl,
        takeLast_takeLast_append]
      congr 1
      simp
  refine ⟨part1, part2, ?_⟩
  intro cfg rules seq s r hr hnd hw
  rw [part2 cfg rules seq s r hr hnd hw, takeLast_length]
  omega

/-- C5 witness: from a fresh evaluator, one agent-stuck event lands in the
(never-matching, still-populated) high-error-rate rule window, and a
two-event sequence leaves a two-entry window for the agent-stuck rule. -/
theorem c5_windows_witness :
    (AgentStuckRule ∈ ALL_RULES ∧ (ALL_RULES.map AlertRule.id).Nodup ∧
      alGet (process_event (initEvaluatorState 0) {} (stuckEv 0) ALL_RULES 0).1.windows
        HighErrorRateRule.id = some [stuckEv 0]) ∧
    alGetD (processSeq {} ALL_RULES (initEvaluatorState 0)
      [(stuckEv 0, 0), (stuckEv 5, 5)]).1.windows AgentStuckRule.id [] =
      [stuckEv 0, stuckEv 5] := by
  have hmem : HighErrorRateRule ∈ ALL_RULES := by
    simp [ALL_RULES]
  have hmem2 : AgentStuckRule ∈ ALL_RULES := by
    simp [ALL_RULES]
  have hnd : (ALL_RULES.map AlertRule.id).Nodup := by
    simp [ALL_RULES, LLMErrorsRule, ToolErrorsRule, AgentStuckRule, TokenLimitRule,
      StepLimitWarningRule, HighErrorRateRule]
  refine ⟨⟨hmem2, hnd, ?_⟩, ?_⟩
  · rw [c5_windows_bounded_and_fifo.1 (initEvaluatorState 0) {} (stuckEv 0)
      ALL_RULES 0 HighErrorRateRule hmem hnd]
    rfl
  · rw [c5_windows_bounded_and_fifo.2.1 {} ALL_RULES [(stuckEv 0, 0), (stuckEv 5, 5)]
      (initEvaluatorState 0) AgentStuckRule hmem2 hnd (by simp [initEvaluatorState, alGetD, alGet])]
    rfl

/-! ### Hourly rate limiting (C4) -/

/-- One evaluation step either leaves the accumulator unchanged, or — only
when the hourly counter is strictly under the cap — increments the counter
by one and appends exactly one alert. -/
theorem processRuleStep_cases (cfg : OpenAlertsConfig) (e : OpenAlertsEvent)
    (now : ℚ) (acc : EvaluatorState × List AlertEvent) (r : AlertRule) :
    processRuleStep cfg e now acc r = acc ∨
    (acc.1.alerts_this_hour < cfg.max_alerts_per_hour ∧
      (processRuleStep cfg e now acc r).1.alerts_this_hour =
        acc.1.alerts_this_hour + 1 ∧
      ∃ a, (processRuleStep cfg e now acc r).2 = acc.2 ++ [a]) := by
  obtain ⟨st, fired⟩ := acc
  unfold processRuleStep
  dsimp only
  split
  · exact Or.inl rfl
  · split
    · exact Or.inl rfl
    · split
      · exact Or.inl rfl
      · split
        · exact Or.inl rfl
        · exact Or.inr ⟨Nat.lt_of_not_le (by assumption), rfl, _, rfl⟩

/-- The evaluation loop never touches the bucket start. -/
theorem processRuleStep_hour_start (cfg : OpenAlertsConfig)
    (e : OpenAlertsEvent) (now : ℚ) (acc : EvaluatorState × List AlertEvent)
    (r : AlertRule) :
    (processRuleStep cfg e now acc r).1.hour_start = acc.1.hour_start := by
  obtain ⟨st, fired⟩ := acc
  unfold processRuleStep
  dsimp only
  split
  · rfl
  · split
    · rfl
    · split
      · rfl
      · split
        · rfl
        · rfl

/-- Folded form of `processRuleStep_hour_start`. -/
theorem foldl_processRuleStep_hour_start (cfg : OpenAlertsConfig)
    (e : OpenAlertsEvent) (now : ℚ) :
    ∀ (rules : List AlertRule) (acc : EvaluatorState × List AlertEvent),
      (rules.foldl (processRuleStep cfg e now) acc).1.hour_start =
        acc.1.hour_start := by
  intro rules
  induction rules with
  | nil => intro acc; rfl
  | cons r rest ih => intro acc; rw [List.foldl_cons, ih, processRuleStep_hour_start]

/-- Counter accounting for the folded evaluation loop: the counter grows by
exactly the number of alerts appended. -/
theorem foldl_processRuleStep_count (cfg : OpenAlertsConfig)
    (e : OpenAlertsEvent) (now : ℚ) :
    ∀ (rules : List AlertRule) (acc : EvaluatorState × List AlertEvent),
      (rules.foldl (processRuleStep cfg e now) acc).1.alerts_this_hour +
        acc.2.length =
      acc.1.alerts_this_hour +
        (rules.foldl (processRuleStep cfg e now) acc).2.length := by
  intro rules
  induction rules with
  | nil => intro acc; rfl
  | cons r rest ih =>
    intro acc
    rw [List.foldl_cons]
    rcases processRuleStep_cases cfg e now acc r with heq | ⟨-, hcount, a, hfired⟩
    · rw [heq]
      exact ih acc
    · have := ih (processRuleStep cfg e now acc r)
      rw [hcount, hfired] at this
      simp only [List.length_append, List.length_cons, List.length_nil] at this
      omega

/-- The folded evaluation loop never pushes the counter past the cap. -/
theorem foldl_processRuleStep_le (cfg : OpenAlertsConfig)
    (e : OpenAlertsEvent) (now : ℚ) :
    ∀ (rules : List AlertRule) (acc : EvaluatorState × List AlertEvent),
      acc.1.alerts_this_hour ≤ cfg.max_alerts_per_hour →
      (rules.foldl (processRuleStep cfg e now) acc).1.alerts_this_hour ≤
        cfg.max_alerts_per_hour := by
  intro rules
  induction rules with
  | nil => intro acc h; exact h
  | cons r rest ih =>
    intro acc h
    rw [List.foldl_cons]
    rcases processRuleStep_cases cfg e now acc r with heq | ⟨hlt, hcount, -, -⟩
    · rw [heq]; exact ih acc h
    · exact ih _ (by omega)

/-- Once the counter has reached the cap, the whole evaluation loop is the
identity: nothing fires and no slot is consumed. -/
theorem foldl_processRuleStep_capped (cfg : OpenAlertsConfig)
    (e : OpenAlertsEvent) (now : ℚ) :
    ∀ (rules : List AlertRule) (acc : EvaluatorState × List AlertEvent),
      cfg.max_alerts_per_hour ≤ acc.1.alerts_this_hour →
      rules.foldl (processRuleStep cfg e now) acc = acc := by
  intro rules
  induction rules with
  | nil => intro acc _; rfl
  | cons r rest ih =>
    intro acc h
    rw [List.foldl_cons]
    rcases processRuleStep_cases cfg e now acc r with heq | ⟨hlt, -, -, -⟩
    · rw [heq]; exact ih acc h
    · omega

/-- The fired-count accounting of one `process_event` call: the counter ends
at the post-reset counter plus the number of fired alerts. -/
theorem process_event_count (s : EvaluatorState) (cfg : OpenAlertsConfig)
    (e : OpenAlertsEvent) (rules : List AlertRule) (now : ℚ) :
    (process_event s cfg e rules now).1.alerts_this_hour =
      (_reset_hour_if_needed s now).alerts_this_hour +
        (process_event s cfg e rules now).2.length := by
  have := foldl_processRuleStep_count cfg e now rules
    ({ _reset_hour_if_needed s now with
        windows := appendToWindows rules (_reset_hour_if_needed s now).windows e }, [])
  simpa [process_event] using this

/-- One `process_event` call keeps the counter within the cap. -/
theorem process_event_cap (s : EvaluatorState) (cfg : OpenAlertsConfig)
    (e : OpenAlertsEvent) (rules : List AlertRule) (now : ℚ)
    (h : (_reset_hour_if_needed s now).alerts_this_hour ≤ cfg.max_alerts_per_hour) :
    (process_event s cfg e rules now).1.alerts_this_hour ≤
      cfg.max_alerts_per_hour := by
  exact foldl_processRuleStep_le cfg e now rules
    ({ _reset_hour_if_needed s now with
        windows := appendToWindows rules (_reset_hour_if_needed s now).windows e }, []) h

/-- A `process_event` call that starts (after the reset check) at the cap
fires nothing and leaves the counter untouched. -/
theorem process_event_capped (s : EvaluatorState) (cfg : OpenAlertsConfig)
    (e : OpenAlertsEvent) (rules : List AlertRule) (now : ℚ)
    (h : cfg.max_alerts_per_hour ≤ (_reset_hour_if_needed s now).alerts_this_hour) :
    (process_event s cfg e rules now).2 = [] ∧
    (process_event s cfg e rules now).1.alerts_this_hour =
      (_reset_hour_if_needed s now).alerts_this_hour := by
  have hfold := foldl_processRuleStep_capped cfg e now rules
    ({ _reset_hour_if_needed s now with
        windows := appendToWindows rules (_reset_hour_if_needed s now).windows e }, []) h
  constructor
  · show (process_event s cfg e rules now).2 = ([] : List AlertEvent)
    rw [show (process_event s cfg e rules now) =
      ({ _reset_hour_if_needed s now with
          windows := appendToWindows rules (_reset_hour_if_needed s now).windows e },
        ([] : List AlertEvent)) from hfold]
  · rw [show (process_event s cfg e rules now) =
      ({ _reset_hour_if_needed s now with
          windows := appendToWindows rules (_reset_hour_if_needed s now).windows e },
        ([] : List AlertEvent)) from hfold]

/-- `process_event` leaves the bucket start where the reset check put it. -/
theorem process_event_hour_start (s : EvaluatorState) (cfg : OpenAlertsConfig)
    (e : OpenAlertsEvent) (rules : List AlertRule) (now : ℚ) :
    (process_event s cfg e rules now).1.hour_start =
      (_reset_hour_if_needed s now).hour_start := by
  exact foldl_processRuleStep_hour_start cfg e now rules _

/-- The reset check can only lower the counter. -/
theorem reset_hour_counter_le (s : EvaluatorState) (now : ℚ) :
    (_reset_hour_if_needed s now).alerts_this_hour ≤ s.alerts_this_hour := by
  unfold _reset_hour_if_needed
  split
  · exact Nat.zero_le _
  · exact Nat.le_refl _

/-- The cap invariant over whole sequences. -/
theorem processSeq_cap (cfg : OpenAlertsConfig) (rules : List AlertRule) :
    ∀ (seq : List (OpenAlertsEvent × ℚ)) (s : EvaluatorState),
      s.alerts_this_hour ≤ cfg.max_alerts_per_hour →
      (processSeq cfg rules s seq).1.alerts_this_hour ≤ cfg.max_alerts_per_hour
  | [], s => fun h => h
  | (e, t) :: rest, s => fun h => by
    rw [show processSeq cfg rules s ((e, t) :: rest) =
      ((processSeq cfg rules (process_event s cfg e rules t).1 rest).1,
        (process_event s cfg e rules t).2 ++
          (processSeq cfg rules (process_event s cfg e rules t).1 rest).2) from rfl]
    exact processSeq_cap cfg rules rest _
      (process_event_cap s cfg e rules t
        (Nat.le_trans (reset_hour_counter_le s t) h))

/-- Within one hour bucket (no event at least 3600s past the bucket start),
the total number of fired alerts plus the starting counter stays within the
cap. -/
theorem processSeq_bucket (cfg : OpenAlertsConfig) (rules : List AlertRule) :
    ∀ (seq : List (OpenAlertsEvent × ℚ)) (s : EvaluatorState),
      s.alerts_this_hour ≤ cfg.max_alerts_per_hour →
      (∀ p ∈ seq, p.2 - s.hour_start < 3600) →
      (processSeq cfg rules s seq).2.length + s.alerts_this_hour ≤
        cfg.max_alerts_per_hour
  | [], s => fun h _ => by
    rw [show processSeq cfg rules s [] = (s, []) from rfl]
    simpa using h
  | (e, t) :: rest, s => fun h hin => by
    rw [show processSeq cfg rules s ((e, t) :: rest) =
      ((processSeq cfg rules (process_event s cfg e rules t).1 rest).1,
        (process_event s cfg e rules t).2 ++
          (processSeq cfg rules (process_event s cfg e rules t).1 rest).2) from rfl]
    have hnr : ¬ (3600 : ℚ) ≤ t - s.hour_start :=
      not_le.mpr (hin (e, t) (List.mem_cons_self _ _))
    have hreset : _reset_hour_if_needed s t = s := by
      unfold _reset_hour_if_needed
      rw [if_neg hnr]
    have hcount := process_event_count s cfg e rules t
    rw [hreset] at hcount
    have hcap : (process_event s cfg e rules t).1.alerts_this_hour ≤
        cfg.max_alerts_per_hour :=
      process_event_cap s cfg e rules t (by rw [hreset]; exact h)
    have hhs : (process_event s cfg e rules t).1.hour_start = s.hour_start := by
      rw [process_event_hour_start, hreset]
    have hrest := processSeq_bucket cfg rules rest (process_event s cfg e rules t).1
      hcap (by
        intro p hp
        rw [hhs]
        exact hin p (List.mem_cons_of_mem _ hp))
    simp only [List.length_append]
    omega

/-- C4: (i) the bucket resets — counter to 0, start to `now` — exactly when
an event is processed at least 3600s after the bucket start, and is
otherwise untouched; (ii) each call's counter equals the post-reset counter
plus the alerts fired by that call; (iii) starting within the cap, the
counter never exceeds `max_alerts_per_hour` over any processed sequence;
(iv) a call starting at the cap fires nothing and consumes no slot; (v) over
any sequence lying inside one bucket, at most `max_alerts_per_hour` alerts
fire in total, regardless of how many rules match. -/
theorem c4_hourly_rate_limit :
    (∀ (s : EvaluatorState) (now : ℚ),
      ((3600 : ℚ) ≤ now - s.hour_start →
        (_reset_hour_if_needed s now).alerts_this_hour = 0 ∧
        (_reset_hour_if_needed s now).hour_start = now) ∧
      (¬ (3600 : ℚ) ≤ now - s.hour_start → _reset_hour_if_needed s now = s)) ∧
    (∀ (s : EvaluatorState) (cfg : OpenAlertsConfig) (e : OpenAlertsEvent)
      (rules : List AlertRule) (now : ℚ),
      (process_event s cfg e rules now).1.alerts_this_hour =
        (_reset_hour_if_needed s now).alerts_this_hour +
          (process_event s cfg e rules now).2.length) ∧
    (∀ (cfg : OpenAlertsConfig) (rules : List AlertRule)
      (seq : List (OpenAlertsEvent × ℚ)) (s : EvaluatorState),
      s.alerts_this_hour ≤ cfg.max_alerts_per_hour →
      (processSeq cfg rules s seq).1.alerts_this_hour ≤ cfg.max_alerts_per_hour) ∧
    (∀ (s : EvaluatorState) (cfg : OpenAlertsConfig) (e : OpenAlertsEvent)
      (rules : List AlertRule) (now : ℚ),
      cfg.max_alerts_per_hour ≤ (_reset_hour_if_needed s now).alerts_this_hour →
      (process_event s cfg e rules now).2 = [] ∧
      (process_event s cfg e rules now).1.alerts_this_hour =
        (_reset_hour_if_needed s now).alerts_this_hour) ∧
    (∀ (cfg : OpenAlertsConfig) (rules : List AlertRule)
      (seq : List (OpenAlertsEvent × ℚ)) (s : EvaluatorState),
      s.alerts_this_hour = 0 →
      (∀ p ∈ seq, p.2 - s.hour_start < 3600) →
      (processSeq cfg rules s seq).2.length ≤ cfg.max_alerts_per_hour) := by
  refine ⟨?_, process_event_count, processSeq_cap, process_event_capped, ?_⟩
  · intro s now
    constructor
    · intro h
      unfold _reset_hour_if_needed
      rw [if_pos h]
      exact ⟨rfl, rfl⟩
    · intro h
      unfold _reset_hour_if_needed
      rw [if_neg h]
  · intro cfg rules seq s h0 hin
    have := processSeq_bucket cfg rules seq s (by omega) hin
    omega

/-- C4 witness: from a fresh evaluator, a one-event in-bucket sequence fires
at most 5 alerts (the default cap); and a call starting at the cap (counter
5, early in the bucket) fires nothing and keeps the counter at 5. -/
theorem c4_hourly_rate_limit_witness :
    ((0 : Nat) ≤ ({} : OpenAlertsConfig).max_alerts_per_hour ∧
      (processSeq {} [AgentStuckRule] (initEvaluatorState 0)
        [(stuckEv 0, 0)]).1.alerts_this_hour ≤
        ({} : OpenAlertsConfig).max_alerts_per_hour) ∧
    ((processSeq {} [AgentStuckRule] (initEvaluatorState 0)
        [(stuckEv 0, 0)]).2.length ≤ ({} : OpenAlertsConfig).max_alerts_per_hour) ∧
    (({} : OpenAlertsConfig).max_alerts_per_hour ≤
        (_reset_hour_if_needed { initEvaluatorState 0 with alerts_this_hour := 5 } 10).alerts_this_hour ∧
      (process_event { initEvaluatorState 0 with alerts_this_hour := 5 }
        {} (stuckEv 10) [AgentStuckRule] 10).2 = []) := by
  have hreset5 : (_reset_hour_if_needed
      { initEvaluatorState 0 with alerts_this_hour := 5 } 10).alerts_this_hour = 5 := by
    norm_num [_reset_hour_if_needed, initEvaluatorState]
  refine ⟨⟨Nat.zero_le _, ?_⟩, ?_, ⟨by rw [hreset5], ?_⟩⟩
  · exact c4_hourly_rate_limit.2.2.1 {} [AgentStuckRule] [(stuckEv 0, 0)]
      (initEvaluatorState 0) (by simp [initEvaluatorState])
  · exact c4_hourly_rate_limit.2.2.2.2 {} [AgentStuckRule] [(stuckEv 0, 0)]
      (initEvaluatorState 0) rfl (by
        intro p hp
        simp only [List.mem_singleton] at hp
        subst hp
        norm_num [initEvaluatorState])
  · exact (c4_hourly_rate_limit.2.2.2.1
      { initEvaluatorState 0 with alerts_this_hour := 5 } {} (stuckEv 10)
      [AgentStuckRule] 10 (by rw [hreset5])).1

/-! ### Warm-from-history (C6) -/

/-- C6: warming from history (i) is a no-op, and not an error, on a missing
log file; (ii) whether the warm completes or raises, the state it leaves
behind differs from the initial state only in the cooldown map, which is
the line loop's result; (iii) a completed line that is not an alert-shaped
object leaves the map untouched — the only effect of any completed line is
`cooldowns[fingerprint] := ts` for an alert-shaped line; (iv) an
alert-shaped line with a string fingerprint sets exactly that entry; (v)
the error path is real: bare number, boolean and null lines, strings and
arrays passing the `in` check, and alert-shaped lines with unhashable
fingerprints all raise; (vi) a raising line aborts the loop at once — later
lines are not folded; (vii) engine start never hands anything to the
dispatcher. -/
theorem c6_warm_from_history_frame :
    (∀ s : EvaluatorState, warm_from_history s none = Except.ok s) ∧
    (∀ (s : EvaluatorState) (lines : List (Option JValue)),
      (exceptJoin (warm_from_history s (some lines))).windows = s.windows ∧
      (exceptJoin (warm_from_history s (some lines))).alerts_this_hour =
        s.alerts_this_hour ∧
      (exceptJoin (warm_from_history s (some lines))).hour_start = s.hour_start ∧
      (exceptJoin (warm_from_history s (some lines))).startup_time =
        s.startup_time ∧
      (exceptJoin (warm_from_history s (some lines))).stats = s.stats ∧
      (exceptJoin (warm_from_history s (some lines))).cooldowns =
        exceptJoin (warmLines s.cooldowns lines)) ∧
    (∀ (cds cds2 : List (String × ℚ)) (line : Option JValue),
      warmLineStep cds line = some cds2 →
      cds2 = cds ∨
        ∃ (fields : List (String × JValue)) (fp : String),
          line = some (JValue.obj fields) ∧
          jHasKey fields "rule_id" = true ∧
          jHasKey fields "fingerprint" = true ∧
          jGet fields "fingerprint" = some (JValue.str fp) ∧
          cds2 = bdSet MAX_COOLDOWN_ENTRIES cds fp (warmTs fields)) ∧
    (∀ (cds : List (String × ℚ)) (fields : List (String × JValue)) (fp : String),
      jHasKey fields "rule_id" = true → jHasKey fields "fingerprint" = true →
      jGet fields "fingerprint" = some (JValue.str fp) →
      warmLineStep cds (some (JValue.obj fields)) =
        some (bdSet MAX_COOLDOWN_ENTRIES cds fp (warmTs fields))) ∧
    (∀ cds : List (String × ℚ),
      (∀ q : ℚ, warmLineStep cds (some (JValue.num q)) = none) ∧
      (∀ b : Bool, warmLineStep cds (some (JValue.bool b)) = none) ∧
      warmLineStep cds (some JValue.null) = none ∧
      (∀ s2 : String, strContains s2 "rule_id" = true →
        strContains s2 "fingerprint" = true →
        warmLineStep cds (some (JValue.str s2)) = none) ∧
      (∀ xs : List JValue, arrHasStr xs "rule_id" = true →
        arrHasStr xs "fingerprint" = true →
        warmLineStep cds (some (JValue.arr xs)) = none) ∧
      (∀ (fields : List (String × JValue)) (ys : List JValue),
        jHasKey fields "rule_id" = true → jHasKey fields "fingerprint" = true →
        jGet fields "fingerprint" = some (JValue.arr ys) →
        warmLineStep cds (some (JValue.obj fields)) = none)) ∧
    (∀ (cds : List (String × ℚ)) (line : Option JValue)
      (rest : List (Option JValue)),
      warmLineStep cds line = none →
      warmLines cds (line :: rest) = Except.error cds) ∧
    (∀ (es : EngineState) (now : ℚ),
      (engineStart es now).dispatched = es.dispatched) := by
  have hjoin : ∀ (s : EvaluatorState) (lines : List (Option JValue)),
      exceptJoin (warm_from_history s (some lines)) =
        { s with cooldowns := exceptJoin (warmLines s.cooldowns lines) } := by
    intro s lines
    unfold warm_from_history
    cases h : warmLines s.cooldowns lines <;> simp [exceptJoin, h]
  refine ⟨fun s => rfl, ?_, ?_, ?_, ?_, ?_, fun es now => rfl⟩
  · intro s lines
    rw [hjoin]
    exact ⟨rfl, rfl, rfl, rfl, rfl, rfl⟩
  · intro cds cds2 line h
    match line with
    | none =>
      injection h with h
      exact Or.inl h.symm
    | some JValue.null => exact absurd h (by simp [warmLineStep])
    | some (JValue.bool b) => exact absurd h (by simp [warmLineStep])
    | some (JValue.num q) => exact absurd h (by simp [warmLineStep])
    | some (JValue.str s2) =>
      unfold warmLineStep at h
      dsimp only at h
      by_cases hc : strContains s2 "rule_id" = true ∧ strContains s2 "fingerprint" = true
      · rw [if_pos hc] at h
        exact absurd h (by simp)
      · rw [if_neg hc] at h
        injection h with h
        exact Or.inl h.symm
    | some (JValue.arr xs) =>
      unfold warmLineStep at h
      dsimp only at h
      by_cases hc : arrHasStr xs "rule_id" = true ∧ arrHasStr xs "fingerprint" = true
      · rw [if_pos hc] at h
        exact absurd h (by simp)
      · rw [if_neg hc] at h
        injection h with h
        exact Or.inl h.symm
    | some (JValue.obj fields) =>
      unfold warmLineStep at h
      dsimp only at h
      by_cases hc : jHasKey fields "rule_id" = true ∧ jHasKey fields "fingerprint" = true
      · rw [if_pos hc] at h
        cases hfp : jGet fields "fingerprint" with
        | none =>
          rw [hfp] at h
          injection h with h
          exact Or.inl h.symm
        | some v =>
          rw [hfp] at h
          match v with
          | JValue.null =>
            injection h with h
            exact Or.inl h.symm
          | JValue.bool b =>
            injection h with h
            exact Or.inl h.symm
          | JValue.num q =>
            injection h with h
            exact Or.inl h.symm
          | JValue.str fp =>
            injection h with h
            exact Or.inr ⟨fields, fp, rfl, hc.1, hc.2, hfp, h.symm⟩
          | JValue.arr ys => exact absurd h (by simp)
          | JValue.obj zs => exact absurd h (by simp)
      · rw [if_neg hc] at h
        injection h with h
        exact Or.inl h.symm
  · intro cds fields fp h1 h2 hfp
    unfold warmLineStep
    dsimp only
    rw [if_pos ⟨h1, h2⟩, hfp]
  · intro cds
    refine ⟨fun q => rfl, fun b => rfl, rfl, ?_, ?_, ?_⟩
    · intro s2 h1 h2
      unfold warmLineStep
      dsimp only
      rw [if_pos ⟨h1, h2⟩]
    · intro xs h1 h2
      unfold warmLineStep
      dsimp only
      rw [if_pos ⟨h1, h2⟩]
    · intro fields ys h1 h2 hfp
      unfold warmLineStep
      dsimp only
      rw [if_pos ⟨h1, h2⟩, hfp]
  · intro cds line rest h
    unfold warmLines
    rw [h]

/-- C6 witness: an alert-shaped line warms exactly its fingerprint with its
timestamp; a bare-number line raises and aborts the loop before a following
alert line is ever read; a plain event-shaped line completes and changes
nothing. -/
theorem c6_warm_from_history_witness :
    (jHasKey [("rule_id", JValue.str "agent-stuck"),
        ("fingerprint", JValue.str "fp1"), ("ts", JValue.num 9)] "rule_id" = true ∧
      warmLineStep [] (some (JValue.obj [("rule_id", JValue.str "agent-stuck"),
        ("fingerprint", JValue.str "fp1"), ("ts", JValue.num 9)])) =
        some (bdSet MAX_COOLDOWN_ENTRIES [] "fp1"
          (warmTs [("rule_id", JValue.str "agent-stuck"),
            ("fingerprint", JValue.str "fp1"), ("ts", JValue.num 9)]))) ∧
    (warmLineStep ([] : List (String × ℚ)) (some (JValue.num 5)) = none ∧
      warmLines ([] : List (String × ℚ)) [some (JValue.num 5),
        some (JValue.obj [("rule_id", JValue.str "r"),
          ("fingerprint", JValue.str "f")])] = Except.error []) ∧
    (warmLineStep ([] : List (String × ℚ))
        (some (JValue.obj [("type", JValue.str "custom")])) = some [] ∧
      (([] : List (String × ℚ)) = [] ∨
        ∃ (fields : List (String × JValue)) (fp : String),
          (some (JValue.obj [("type", JValue.str "custom")]) : Option JValue) =
            some (JValue.obj fields) ∧
          jHasKey fields "rule_id" = true ∧
          jHasKey fields "fingerprint" = true ∧
          jGet fields "fingerprint" = some (JValue.str fp) ∧
          ([] : List (String × ℚ)) =
            bdSet MAX_COOLDOWN_ENTRIES [] fp (warmTs fields))) :=
  ⟨⟨by decide,
    c6_warm_from_history_frame.2.2.2.1 [] _ "fp1" (by decide) (by decide) rfl⟩,
   ⟨(c6_warm_from_history_frame.2.2.2.2.1 []).1 5,
    c6_warm_from_history_frame.2.2.2.2.2.1 [] _ _
      ((c6_warm_from_history_frame.2.2.2.2.1 []).1 5)⟩,
   ⟨rfl, c6_warm_from_history_frame.2.2.1 [] [] _ rfl⟩⟩

/-! ### Store round trip and record classification (C9) -/

/-- Enum round trip for event types. -/
theorem eventTypeOfString_toString (t : EventType) :
    eventTypeOfString (eventTypeToString t) = some t := by
  cases t <;> simp [eventTypeToString, eventTypeOfString]

/-- Enum round trip for severities. -/
theorem severityOfString_toString (s : Severity) :
    severityOfString (severityToString s) = some s := by
  cases s <;> simp [severityToString, severityOfString]

/-- Optional-string field round trip. -/
theorem parseOptStr_jOptStr (o : Option String) :
    parseOptStr (some (jOptStr o)) = some o := by
  cases o <;> rfl

/-- Optional-float field round trip. -/
theorem parseOptNum_jOptNum (o : Option ℚ) :
    parseOptNum (some (jOptNum o)) = some o := by
  cases o <;> rfl

/-- Optional-int field round trip (an integer cast to `ℚ` has denominator 1
and numerator itself). -/
theorem parseOptInt_jOptInt (o : Option Int) :
    parseOptInt (some (jOptInt o)) = some o := by
  cases o with
  | none => rfl
  | some i => simp [parseOptInt, jOptInt]

/-- Optional-object field round trip. -/
theorem parseOptObj_jOptObj (o : Option (List (String × JValue))) :
    parseOptObj (some (jOptObj o)) = some o := by
  cases o <;> rfl

/-- Severity-with-default field round trip. -/
theorem parseSevD_toString (s : Severity) :
    parseSevD (some (JValue.str (severityToString s))) = some s := by
  simp [parseSevD, severityOfString_toString]

/-- Round trip of one persisted event through dump and validate. -/
theorem jsonToEvent_eventToJson (now : ℚ) (e : OpenAlertsEvent) :
    jsonToEvent now (eventToJson e) = some e := by
  obtain ⟨ty, ts, sev, an, ac, tn, dm, tc, err, out, sn, ms, mt⟩ := e
  simp [eventToJson, evFields, jsonToEvent, jGet, parseStr, parseNumD,
    eventTypeOfString_toString, severityOfString_toString, parseSevD_toString,
    parseOptStr_jOptStr, parseOptNum_jOptNum, parseOptInt_jOptInt,
    parseOptObj_jOptObj]

/-- Round trip of a list of persisted events. -/
theorem mapM_jsonToEvent (now : ℚ) :
    ∀ l : List OpenAlertsEvent, (l.map eventToJson).mapM (jsonToEvent now) = some l
  | [] => rfl
  | e :: rest => by
    rw [List.map_cons, List.mapM_cons, jsonToEvent_eventToJson,
      mapM_jsonToEvent now rest]
    rfl

/-- Round trip of a list of persisted events, stated on the `mapM` loop. -/
theorem mapM_loop_jsonToEvent (now : ℚ) :
    ∀ (l : List OpenAlertsEvent) (acc : List OpenAlertsEvent),
      List.mapM.loop (jsonToEvent now) (l.map eventToJson) acc =
        some (acc.reverse ++ l)
  | [], acc => by simp [List.mapM.loop]
  | e :: rest, acc => by
    simp [List.mapM.loop, jsonToEvent_eventToJson,
      mapM_loop_jsonToEvent now rest (e :: acc)]

/-- Round trip of one persisted alert through dump and validate. -/
theorem jsonToAlert_alertToJson (now : ℚ) (a : AlertEvent) :
    jsonToAlert now (alertToJson a) = some a := by
  obtain ⟨rid, sev, title, detail, fp, ts, evs⟩ := a
  simp [alertToJson, alFields, jsonToAlert, jGet, parseStr, parseNumD, parseEventsD,
    severityOfString_toString, mapM_jsonToEvent, mapM_loop_jsonToEvent]

/-- A dumped event carries no `rule_id` key. -/
theorem evFields_no_rule_id (e : OpenAlertsEvent) :
    jHasKey (evFields e) "rule_id" = false := by
  simp [evFields, jHasKey]

/-- A dumped event carries a `type` key. -/
theorem evFields_has_type (e : OpenAlertsEvent) :
    jHasKey (evFields e) "type" = true := by
  simp [evFields, jHasKey]

/-- A dumped alert carries both classification keys. -/
theorem alFields_keys (a : AlertEvent) :
    jHasKey (alFields a) "rule_id" = true ∧
    jHasKey (alFields a) "fingerprint" = true := by
  constructor <;> simp [alFields, jHasKey]

/-- A dumped event line is classified as an Event record and validates back
to the original event. -/
theorem classifyLine_event (now : ℚ) (e : OpenAlertsEvent) :
    classifyLine now (eventToJson e) = some (Sum.inl e) := by
  unfold classifyLine eventToJson
  dsimp only
  rw [if_neg (by simp [evFields_no_rule_id]), if_pos (evFields_has_type e),
    show JValue.obj (evFields e) = eventToJson e from rfl,
    jsonToEvent_eventToJson]
  rfl

/-- A dumped alert line is classified as an Alert record and validates back
to the original alert. -/
theorem classifyLine_alert (now : ℚ) (a : AlertEvent) :
    classifyLine now (alertToJson a) = some (Sum.inr a) := by
  unfold classifyLine alertToJson
  dsimp only
  rw [if_pos ⟨(alFields_keys a).1, (alFields_keys a).2⟩,
    show JValue.obj (alFields a) = alertToJson a from rfl,
    jsonToAlert_alertToJson]
  rfl

/-- C9: appending an Event's dumped line and loading history yields the
equivalent Event back, and likewise for an Alert; classification on load
sends any line with both `rule_id` and `fingerprint` keys down the Alert
branch and any other line with a `type` key down the Event branch. -/
theorem c9_round_trip_and_classification :
    (∀ (now : ℚ) (e : OpenAlertsEvent),
      loadHistoryLines now [some (eventToJson e)] = ([e], [])) ∧
    (∀ (now : ℚ) (a : AlertEvent),
      loadHistoryLines now [some (alertToJson a)] = ([], [a])) ∧
    (∀ (now : ℚ) (fields : List (String × JValue)),
      jHasKey fields "rule_id" = true → jHasKey fields "fingerprint" = true →
      classifyLine now (JValue.obj fields) =
        (jsonToAlert now (JValue.obj fields)).map Sum.inr) ∧
    (∀ (now : ℚ) (fields : List (String × JValue)),
      ¬ (jHasKey fields "rule_id" = true ∧ jHasKey fields "fingerprint" = true) →
      jHasKey fields "type" = true →
      classifyLine now (JValue.obj fields) =
        (jsonToEvent now (JValue.obj fields)).map Sum.inl) := by
  refine ⟨?_, ?_, ?_, ?_⟩
  · intro now e
    unfold loadHistoryLines
    simp [classifyLine_event]
  · intro now a
    unfold loadHistoryLines
    simp [classifyLine_alert]
  · intro now fields h1 h2
    unfold classifyLine
    dsimp only
    rw [if_pos ⟨h1, h2⟩]
  · intro now fields h1 h2
    unfold classifyLine
    dsimp only
    rw [if_neg h1, if_pos h2]

/-- C9 witness: a concrete alert-shaped line goes down the Alert branch and
a concrete plain line with a `type` key goes down the Event branch. -/
theorem c9_round_trip_witness :
    (jHasKey [("rule_id", JValue.str "r1"), ("fingerprint", JValue.str "f1")]
        "rule_id" = true ∧
      classifyLine 0 (JValue.obj [("rule_id", JValue.str "r1"),
        ("fingerprint", JValue.str "f1")]) =
        (jsonToAlert 0 (JValue.obj [("rule_id", JValue.str "r1"),
          ("fingerprint", JValue.str "f1")])).map Sum.inr) ∧
    classifyLine 0 (JValue.obj [("type", JValue.str "custom")]) =
      (jsonToEvent 0 (JValue.obj [("type", JValue.str "custom")])).map Sum.inl :=
  ⟨⟨by decide,
    c9_round_trip_and_classification.2.2.1 0 _ (by decide) (by decide)⟩,
    c9_round_trip_and_classification.2.2.2 0 _ (by decide) (by decide)⟩

/-! ### Pruning (C10) -/

/-- The size phase always lands at or under the byte cap. -/
theorem sizeTrim_le (maxBytes : Nat) :
    ∀ l : List String, totalSize (sizeTrim maxBytes l) ≤ maxBytes
  | [] => by simp [sizeTrim, totalSize]
  | x :: t => by
    unfold sizeTrim
    split
    · exact sizeTrim_le maxBytes t
    · omega

/-- The size phase drops only from the front: the result is a suffix. -/
theorem sizeTrim_suffix (maxBytes : Nat) :
    ∀ l : List String, sizeTrim maxBytes l <:+ l
  | [] => List.suffix_refl []
  | x :: t => by
    unfold sizeTrim
    split
    · exact (sizeTrim_suffix maxBytes t).trans (List.suffix_cons x t)
    · exact List.suffix_refl _

/-- Every line the age phase keeps either has no parsable timestamp or has
its timestamp at or past the cutoff. -/
theorem ageKeep_timestamps (cutoff_ts : ℚ) (lines : List String) :
    ∀ l ∈ ageKeep cutoff_ts lines, ∀ ts, extractTs l = some ts → cutoff_ts ≤ ts := by
  intro l hl ts hts
  obtain ⟨orig, -, hf⟩ := List.mem_filterMap.mp hl
  by_cases hstr : pyStrip orig = ""
  · simp [hstr] at hf
  · rw [if_neg hstr] at hf
    cases hext : extractTs (pyStrip orig) with
    | none =>
      rw [hext] at hf
      injection hf with hf
      subst hf
      rw [hext] at hts
      exact absurd hts (by simp)
    | some ts2 =>
      rw [hext] at hf
      dsimp only at hf
      by_cases hge : cutoff_ts ≤ ts2
      · rw [if_pos hge] at hf
        injection hf with hf
        subst hf
        rw [hext] at hts
        injection hts with hts
        subst hts
        exact hge
      · rw [if_neg hge] at hf
        exact absurd hf (by simp)

/-- A non-blank line with no parsable timestamp is kept (defensively) by the
age phase. -/
theorem ageKeep_unparsable (cutoff_ts : ℚ) (lines : List String) :
    ∀ orig ∈ lines, ¬ pyStrip orig = "" → extractTs (pyStrip orig) = none →
      pyStrip orig ∈ ageKeep cutoff_ts lines := by
  intro orig hmem hstr hext
  exact List.mem_filterMap.mpr ⟨orig, hmem, by rw [if_neg hstr, hext]⟩

/-- C10: after pruning, (i) every retained line with a parsable timestamp is
at or past the age cutoff `now − D·86400`; (ii) the retained total size
(lengths plus newlines) is at most `S·1024`; (iii) the size phase dropped
lines only from the front of the age-filtered list; (iv) a non-blank,
unparsable line survives the age phase defensively. -/
theorem c10_prune_log (lines : List String) (now : ℚ) (S D : Nat) :
    (∀ l ∈ prune_log lines now S D, ∀ ts, extractTs l = some ts →
      now - ((D * 86400 : Nat) : ℚ) ≤ ts) ∧
    totalSize (prune_log lines now S D) ≤ S * 1024 ∧
    prune_log lines now S D <:+ ageKeep (now - ((D * 86400 : Nat) : ℚ)) lines ∧
    (∀ orig ∈ lines, ¬ pyStrip orig = "" → extractTs (pyStrip orig) = none →
      pyStrip orig ∈ ageKeep (now - ((D * 86400 : Nat) : ℚ)) lines) := by
  refine ⟨?_, sizeTrim_le _ _, sizeTrim_suffix _ _, ageKeep_unparsable _ lines⟩
  intro l hl ts hts
  have hsub : l ∈ ageKeep (now - ((D * 86400 : Nat) : ℚ)) lines :=
    (sizeTrim_suffix (S * 1024) _).subset hl
  exact ageKeep_timestamps _ lines l hsub ts hts

/-- C10 witness: a one-line log whose line has no parsable timestamp is
retained whole under a 1 KiB cap and a 1-day age limit. -/
theorem c10_prune_log_witness :
    ("junk" ∈ prune_log ["junk"] 0 1 1 ∧
      totalSize (prune_log ["junk"] 0 1 1) ≤ 1 * 1024) ∧
    ("junk" ∈ (["junk"] : List String) ∧ ¬ pyStrip "junk" = "" ∧
      extractTs (pyStrip "junk") = none ∧
      pyStrip "junk" ∈ ageKeep ((0 : ℚ) - ((1 * 86400 : Nat) : ℚ)) ["junk"]) := by
  have hmem : "junk" ∈ (["junk"] : List String) := List.mem_singleton.mpr rfl
  have hstr : ¬ pyStrip "junk" = "" := by decide
  have hext : extractTs (pyStrip "junk") = none := by decide
  refine ⟨⟨?_, (c10_prune_log ["junk"] 0 1 1).2.1⟩, hmem, hstr, hext,
    (c10_prune_log ["junk"] 0 1 1).2.2.2 "junk" hmem hstr hext⟩
  decide

/-! ### Engine stop/start and ingest (C2) -/

/-- C2 counterexample: construct an engine, start it, stop it, start it
again, then ingest an event. The engine reports running, yet the ingest is a
complete no-op — the live buffer stays empty, nothing is persisted, the
processed-events counter stays 0 — because `stop()` cleared the bus listener
set and `start()` never re-registers `_on_event`. -/
theorem c2_stop_start_ingest_counterexample :
    (engineStart (engineStop (engineStart (engineInit {} none 0) 0)) 1).running = true ∧
    engineIngest (engineStart (engineStop (engineStart (engineInit {} none 0) 0)) 1)
        (stuckEv 2) 2 =
      engineStart (engineStop (engineStart (engineInit {} none 0) 0)) 1 ∧
    (engineIngest (engineStart (engineStop (engineStart (engineInit {} none 0) 0)) 1)
        (stuckEv 2) 2).liveEvents = [] ∧
    (engineIngest (engineStart (engineStop (engineStart (engineInit {} none 0) 0)) 1)
        (stuckEv 2) 2).log = none ∧
    alGetD (engineIngest (engineStart (engineStop (engineStart (engineInit {} none 0) 0)) 1)
        (stuckEv 2) 2).stats "events_processed" 0 = 0 := by
  refine ⟨rfl, ?_, ?_, ?_, ?_⟩ <;> rfl

/-- C2 amended: after a stop/start cycle the bus listener set is empty, and
an ingest into an engine with no bus listeners leaves the whole engine state
unchanged (the event is not buffered, counted, persisted or evaluated);
the claimed full ingest effect holds only for an engine that has never been
stopped. -/
theorem c2_stop_start_ingest_amended :
    (∀ (es : EngineState) (now : ℚ),
      (engineStart (engineStop es) now).busListeners = []) ∧
    (∀ (es : EngineState) (e : OpenAlertsEvent) (now : ℚ),
      es.busListeners = [] → engineIngest es e now = es) ∧
    (∀ (es : EngineState) (e : OpenAlertsEvent) (now t : ℚ),
      engineIngest (engineStart (engineStop es) t) e now =
        engineStart (engineStop es) t) := by
  have h2 : ∀ (es : EngineState) (e : OpenAlertsEvent) (now : ℚ),
      es.busListeners = [] → engineIngest es e now = es := by
    intro es e now h
    unfold engineIngest
    rw [h]
    split <;> rfl
  exact ⟨fun es now => rfl, h2, fun es e now t => h2 _ e now rfl⟩

/-- C2 amended witness: a freshly constructed, immediately stopped engine
has an empty listener set, and ingesting into it changes nothing. -/
theorem c2_stop_start_ingest_amended_witness :
    (engineStop (engineInit {} none 0)).busListeners = [] ∧
    engineIngest (engineStop (engineInit {} none 0)) (stuckEv 2) 2 =
      engineStop (engineInit {} none 0) :=
  ⟨rfl, c2_stop_start_ingest_amended.2.1 _ (stuckEv 2) 2 rfl⟩

/-- Per-alert bookkeeping never touches the live-events buffer. -/
theorem onAlertStep_liveEvents (es : EngineState) (a : AlertEvent) :
    (onAlertStep es a).liveEvents = es.liveEvents := by
  unfold onAlertStep
  dsimp only
  split
  · split <;> rfl
  · split <;> rfl

/-- Folded form of `onAlertStep_liveEvents`. -/
theorem foldl_onAlertStep_liveEvents :
    ∀ (alerts : List AlertEvent) (es : EngineState),
      (alerts.foldl onAlertStep es).liveEvents = es.liveEvents
  | [], es => rfl
  | a :: rest, es => by
    rw [List.foldl_cons, foldl_onAlertStep_liveEvents rest _, onAlertStep_liveEvents]

set_option maxRecDepth 8000 in
/-- `_on_event` appends the event to the live buffer (bounded). -/
theorem onEventStep_liveEvents (es : EngineState) (e : OpenAlertsEvent) (now : ℚ) :
    (onEventStep es e now).liveEvents =
      boundedAppend MAX_LIVE_EVENTS es.liveEvents e := by
  unfold onEventStep
  rw [foldl_onAlertStep_liveEvents]
  dsimp only
  repeat' split
  all_goals rfl

/-- C2 contrast: on a freshly started (never stopped) engine, ingest does
append the event to the live buffer — the no-op behaviour is specific to
the stop/start cycle. -/
theorem c2_fresh_engine_ingest_appends :
    (engineIngest (engineStart (engineInit {} none 0) 0) (stuckEv 2) 2).liveEvents =
      [stuckEv 2] := by
  rw [show engineIngest (engineStart (engineInit {} none 0) 0) (stuckEv 2) 2 =
    onEventStep (engineStart (engineInit {} none 0) 0) (stuckEv 2) 2 from rfl]
  rw [onEventStep_liveEvents]
  rfl
